import Mathlib

/-!
# TypeAware — verification of the natural-language specification

Shallow embedding, in Lean 4, of the core algorithms of the TypeAware
cyberbullying-detection system, together with theorems settling the frozen
claims about its specification.

Python strings are modelled as `List Char`; Python floats are modelled as
exact rationals `ℚ` (reals `ℝ` only where the source computes a square root);
Python dicts used as ordered sets / FIFO maps are modelled as insertion-ordered
association lists.  `str.lower()` is modelled by `Char.toLower` (ASCII
lowercasing; all concrete inputs used below are unaffected).
-/

/-! Batteries marks the `Rat` arithmetic operations `@[irreducible]`, which
blocks kernel evaluation of concrete scores; restore reducibility locally so
that concrete runs of the embedded algorithms can be settled by `decide`. -/

attribute [local semireducible] Rat.mul Rat.add Rat.sub Rat.inv

set_option maxRecDepth 16384

/-! ## Similarity library (src/ai/detection/fuzzy_matcher.py) -/

/-- Model of Python `str.lower()` (ASCII case folding). -/
def lowerL (s : List Char) : List Char := s.map Char.toLower

/-- Inner loop of `FuzzyMatcher._levenshtein_distance`: builds the tail of
`current_row` from `previous_row` (walked as `p0 :: p1 :: …`), the cell to the
left (`curLeft`) and the current character `c1` of `s1`. -/
def levLoop (c1 : Char) : List Char → List ℕ → ℕ → List ℕ
  | c2 :: s2rest, p0 :: p1 :: prest, curLeft =>
      let ins := p1 + 1
      let del := curLeft + 1
      let sub := p0 + (if c1 ≠ c2 then 1 else 0)
      let v := min ins (min del sub)
      v :: levLoop c1 s2rest (p1 :: prest) v
  | _, _, _ => []

/-- Outer loop of `FuzzyMatcher._levenshtein_distance`: one row per character
of `s1`, starting from row `0,1,…,len(s2)`. -/
def levRows (s2 : List Char) : List Char → List ℕ → ℕ → List ℕ
  | [], prev, _ => prev
  | c1 :: s1rest, prev, i =>
      levRows s2 s1rest ((i + 1) :: levLoop c1 s2 prev (i + 1)) (i + 1)

/-- Embeds `FuzzyMatcher._levenshtein_distance` after the initial argument swap
(so `s1` is the longer string). -/
def levenshtein_distance_core (s1 s2 : List Char) : ℕ :=
  if s2.length = 0 then s1.length
  else (levRows s2 s1 (List.range (s2.length + 1)) 0).getLastD 0

/-- Embeds `FuzzyMatcher._levenshtein_distance`. -/
def levenshtein_distance (s1 s2 : List Char) : ℕ :=
  if s1.length < s2.length then levenshtein_distance_core s2 s1
  else levenshtein_distance_core s1 s2

/-- Embeds `FuzzyMatcher._levenshtein_similarity`. -/
def levenshtein_similarity (s1 s2 : List Char) : ℚ :=
  let d := levenshtein_distance s1 s2
  let maxLen := max s1.length s2.length
  if maxLen = 0 then 1 else 1 - (d : ℚ) / (maxLen : ℚ)

/-- Matching phase of `FuzzyMatcher._jaro_similarity`: returns the match flags
for `s1` and `s2` and the number of matches. -/
def jaroMark (s1 s2 : List Char) (md : ℕ) : List Bool × List Bool × ℕ :=
  (List.range s1.length).foldl
    (fun st i =>
      let s1m := st.1
      let s2m := st.2.1
      let m := st.2.2
      let start := i - md
      let stop := min (i + md + 1) s2.length
      match (List.range' start (stop - start)).find?
          (fun j => !(s2m.getD j false) && (s1.getD i ' ' == s2.getD j ' ')) with
      | some j => (s1m.set i true, s2m.set j true, m + 1)
      | none => (s1m, s2m, m))
    (List.replicate s1.length false, List.replicate s2.length false, 0)

/-- Embeds `while not s2_matches[k]: k += 1` — first index `≥ k` flagged in `s2m`. -/
def jaroNextTrue (s2m : List Bool) (k : ℕ) : ℕ :=
  (((List.range' k (s2m.length - k)).find? (fun j => s2m.getD j false)).getD s2m.length)

/-- Transposition count of `FuzzyMatcher._jaro_similarity`. -/
def jaroTrans (s1 s2 : List Char) (s1m s2m : List Bool) : ℕ :=
  ((List.range s1.length).foldl
    (fun (st : ℕ × ℕ) i =>
      if s1m.getD i false then
        let k := jaroNextTrue s2m st.2
        (st.1 + (if s1.getD i ' ' ≠ s2.getD k ' ' then 1 else 0), k + 1)
      else st)
    (0, 0)).1

/-- Embeds `FuzzyMatcher._jaro_similarity`. -/
def jaro_similarity (s1 s2 : List Char) : ℚ :=
  if s1 = s2 then 1
  else
    let len1 := s1.length
    let len2 := s2.length
    if len1 = 0 ∨ len2 = 0 then 0
    else
      let md := max len1 len2 / 2 - 1
      let r := jaroMark s1 s2 md
      let m := r.2.2
      if m = 0 then 0
      else
        let t := jaroTrans s1 s2 r.1 r.2.1
        ((m : ℚ) / len1 + (m : ℚ) / len2 + ((m : ℚ) - (t : ℚ) / 2) / m) / 3

/-- Common-prefix length (≤ 4) used by `FuzzyMatcher._jaro_winkler_similarity`. -/
def jwPrefixLen : List Char → List Char → ℕ → ℕ
  | a :: as, b :: bs, n + 1 => if a = b then 1 + jwPrefixLen as bs n else 0
  | _, _, _ => 0

/-- Embeds `FuzzyMatcher._jaro_winkler_similarity`. -/
def jaro_winkler_similarity (s1 s2 : List Char) : ℚ :=
  let j := jaro_similarity s1 s2
  if j < 7 / 10 then j
  else j + (1 / 10) * (jwPrefixLen s1 s2 4 : ℚ) * (1 - j)

/-! ### difflib.SequenceMatcher.ratio

`difflib.SequenceMatcher(None, a, b).ratio()` is used by the fuzzy matcher
(`_sequence_matcher_similarity`), the obfuscation detector and the content
engine.  Embedded here without the junk heuristics (no junk argument is ever
passed, and `autojunk` only activates on sequences of 200+ elements, longer
than every use in the source). -/

/-- Embeds `b2j`: ascending list of the indices at which `c` occurs in `b`. -/
def b2j (b : List Char) (c : Char) : List ℕ :=
  (List.range b.length).filter (fun j => b.getD j ' ' == c)

/-- Association-list lookup with default 0 (Python `dict.get(k, 0)`). -/
def assocGet (l : List (ℕ × ℕ)) (k : ℕ) : ℕ :=
  ((l.find? (fun p => p.1 == k)).map Prod.snd).getD 0

/-- Main dynamic-programming loop of `SequenceMatcher.find_longest_match`
restricted to `a[alo:ahi]`, `b[blo:bhi]`; returns `(besti, bestj, bestsize)`. -/
def flmLoop (a b : List Char) (alo ahi blo bhi : ℕ) : ℕ × ℕ × ℕ :=
  let st := (List.range' alo (ahi - alo)).foldl
    (fun (st : (List (ℕ × ℕ)) × ℕ × ℕ × ℕ) i =>
      let j2len := st.1
      let js := ((b2j b (a.getD i ' ')).filter (fun j => blo ≤ j)).takeWhile
        (fun j => j < bhi)
      js.foldl
        (fun (p : (List (ℕ × ℕ)) × ℕ × ℕ × ℕ) j =>
          let k := (if j = 0 then 0 else assocGet j2len (j - 1)) + 1
          let nj := (j, k) :: p.1
          if k > p.2.2.2 then (nj, i + 1 - k, j + 1 - k, k)
          else (nj, p.2))
        ([], st.2))
    ([], alo, blo, 0)
  st.2

/-- Left-extension loop of `find_longest_match` (no junk, so the single
non-junk extension round applies). -/
def flmExtendLeft (a b : List Char) (alo blo : ℕ) :
    ℕ → ℕ → ℕ → ℕ → ℕ × ℕ × ℕ
  | 0, besti, bestj, bestsize => (besti, bestj, bestsize)
  | fuel + 1, besti, bestj, bestsize =>
      if alo < besti ∧ blo < bestj ∧
          a.getD (besti - 1) ' ' = b.getD (bestj - 1) ' ' then
        flmExtendLeft a b alo blo fuel (besti - 1) (bestj - 1) (bestsize + 1)
      else (besti, bestj, bestsize)

/-- Right-extension loop of `find_longest_match`. -/
def flmExtendRight (a b : List Char) (ahi bhi : ℕ) :
    ℕ → ℕ → ℕ → ℕ → ℕ × ℕ × ℕ
  | 0, besti, bestj, bestsize => (besti, bestj, bestsize)
  | fuel + 1, besti, bestj, bestsize =>
      if besti + bestsize < ahi ∧ bestj + bestsize < bhi ∧
          a.getD (besti + bestsize) ' ' = b.getD (bestj + bestsize) ' ' then
        flmExtendRight a b ahi bhi fuel besti bestj (bestsize + 1)
      else (besti, bestj, bestsize)

/-- Embeds `SequenceMatcher.find_longest_match` (junk-free). -/
def findLongestMatch (a b : List Char) (alo ahi blo bhi : ℕ) : ℕ × ℕ × ℕ :=
  let r := flmLoop a b alo ahi blo bhi
  let r := flmExtendLeft a b alo blo r.1 r.1 r.2.1 r.2.2
  flmExtendRight a b ahi bhi (ahi + bhi) r.1 r.2.1 r.2.2

/-- Total size of the matching blocks of `SequenceMatcher.get_matching_blocks`
(the recursive splitting around each longest match); this total is all that
`ratio` consumes.  `fuel` bounds the recursion depth (each split strictly
shrinks the combined interval length, so `la + lb + 1` suffices). -/
def matchingSum (a b : List Char) : ℕ → ℕ → ℕ → ℕ → ℕ → ℕ
  | 0, _, _, _, _ => 0
  | fuel + 1, alo, ahi, blo, bhi =>
      let r := findLongestMatch a b alo ahi blo bhi
      let i := r.1
      let j := r.2.1
      let k := r.2.2
      if k = 0 then 0
      else k + matchingSum a b fuel alo i blo j +
        matchingSum a b fuel (i + k) ahi (j + k) bhi

/-- Embeds `difflib.SequenceMatcher(None, a, b).ratio()` — `2·M / T`, and 1.0 when
both sequences are empty (`_calculate_ratio`). -/
def difflib_ratio (a b : List Char) : ℚ :=
  let la := a.length
  let lb := b.length
  let m := matchingSum a b (la + lb + 1) 0 la 0 lb
  if la + lb = 0 then 1 else 2 * (m : ℚ) / ((la : ℚ) + (lb : ℚ))

/-- Embeds `FuzzyMatcher._sequence_matcher_similarity`. -/
def sequence_matcher_similarity (s1 s2 : List Char) : ℚ := difflib_ratio s1 s2

/-- Embeds `FuzzyMatcher._jaccard_similarity` — character sets of the lowercased
strings; returns 0.0 (not 1.0) when the union is empty. -/
def jaccard_similarity (s1 s2 : List Char) : ℚ :=
  let set1 := (lowerL s1).dedup
  let set2 := (lowerL s2).dedup
  let inter := (set1.filter (fun c => set2.contains c)).length
  let union := (set1 ++ set2.filter (fun c => !set1.contains c)).length
  if union > 0 then (inter : ℚ) / (union : ℚ) else 0

open Classical in
/-- Embeds `FuzzyMatcher._cosine_similarity` — character-frequency vectors of the
lowercased strings; returns 0.0 when either magnitude is zero (in particular
for an empty string). -/
noncomputable def cosine_similarity (s1 s2 : List Char) : ℝ :=
  let l1 := lowerL s1
  let l2 := lowerL s2
  let allChars := (l1 ++ l2).dedup
  let dot : ℚ := (allChars.map (fun c => (l1.count c : ℚ) * (l2.count c : ℚ))).sum
  let mag1 : ℝ := Real.sqrt (((allChars.map (fun c => (l1.count c : ℚ) ^ 2)).sum : ℚ) : ℝ)
  let mag2 : ℝ := Real.sqrt (((allChars.map (fun c => (l2.count c : ℚ) ^ 2)).sum : ℚ) : ℝ)
  if mag1 = 0 ∨ mag2 = 0 then 0 else (dot : ℝ) / (mag1 * mag2)

/-- The `n`-grams of a string (`set(s[i:i+n] …)` is modelled by `dedup`). -/
def ngramsOf (s : List Char) (n : ℕ) : List (List Char) :=
  ((List.range (s.length - n + 1)).map (fun i => (s.drop i).take n)).dedup

/-- Embeds `FuzzyMatcher._n_gram_similarity` (default `n = 2`); falls back to the
sequence-matcher ratio on strings shorter than `n`. -/
def n_gram_similarity (s1 s2 : List Char) (n : ℕ := 2) : ℚ :=
  if s1.length < n ∨ s2.length < n then sequence_matcher_similarity s1 s2
  else
    let g1 := ngramsOf s1 n
    let g2 := ngramsOf s2 n
    let inter := (g1.filter (fun x => g2.contains x)).length
    let union := (g1 ++ g2.filter (fun x => !g1.contains x)).length
    if union > 0 then (inter : ℚ) / (union : ℚ) else 0


/-! ## Obfuscation Engine (src/ai/detection/obfuscation_detector.py) -/

/-- Embeds `ObfuscationDetector._init_character_map` — per-letter substitution table. -/
def charSubstitutions : List (Char × List Char) :=
  [('a', ['@', '4', 'α', 'à', 'á', 'â', 'ä', 'ã', 'å', 'ā']),
   ('e', ['3', 'ε', 'è', 'é', 'ê', 'ë', 'ē', '€']),
   ('i', ['1', '!', 'ι', 'ì', 'í', 'î', 'ï', 'ī', '|']),
   ('o', ['0', 'ο', 'ò', 'ó', 'ô', 'ö', 'õ', 'ō', '°']),
   ('u', ['υ', 'ù', 'ú', 'û', 'ü', 'ū', 'µ']),
   ('s', ['5', '$', 'ς', 'š', 'ş', '§']),
   ('t', ['7', '+', 'τ', 'ť', 'ţ']),
   ('l', ['1', '|', 'ι', 'ĺ', 'ł']),
   ('g', ['9', 'ğ']),
   ('b', ['6', 'β']),
   ('z', ['2']),
   ('c', ['(', 'ç', 'ć', 'č']),
   ('n', ['η', 'ñ', 'ń', 'ň']),
   ('r', ['γ', 'ř']),
   ('h', ['#']),
   ('k', ['κ']),
   ('m', ['μ']),
   ('p', ['ρ']),
   ('w', ['ω', 'ω']),
   ('x', ['χ', '×']),
   ('y', ['ψ', 'ý', 'ÿ'])]

/-- Embeds `ObfuscationDetector._init_leet_speak` — leet character to plain letter. -/
def leetSpeakMap : List (Char × Char) :=
  [('@', 'a'), ('4', 'a'), ('3', 'e'), ('1', 'i'), ('!', 'i'),
   ('0', 'o'), ('5', 's'), ('$', 's'), ('7', 't'), ('+', 't'),
   ('|', 'l'), ('9', 'g'), ('6', 'b'), ('2', 'z'), ('(', 'c'),
   ('#', 'h'), ('×', 'x')]

/-- Embeds `ObfuscationDetector._init_unicode_variants`. -/
def unicodeVariantsMap : List (Char × List Char) :=
  [('a', ['а', 'α', 'ɑ', 'ａ']),
   ('e', ['е', 'ε', 'ｅ']),
   ('o', ['о', 'ο', 'ｏ', '᧐']),
   ('p', ['р', 'ρ', 'ｐ']),
   ('c', ['с', 'ｃ']),
   ('x', ['х', 'χ', 'ｘ']),
   ('y', ['у', 'ψ', 'ｙ']),
   ('k', ['κ', 'ｋ']),
   ('n', ['η', 'ｎ']),
   ('h', ['һ', 'ｈ']),
   ('b', ['ь', 'β', 'ｂ']),
   ('m', ['м', 'μ', 'ｍ']),
   ('r', ['г', 'γ', 'ｒ']),
   ('t', ['т', 'τ', 'ｔ']),
   ('i', ['і', 'ι', 'ｉ']),
   ('u', ['υ', 'ｕ']),
   ('s', ['ѕ', 'ς', 'ｓ'])]

/-- Embeds `self.common_separators`. -/
def commonSeparators : List (List Char) :=
  [" ".data, ".".data, "-".data, "_".data, "*".data, "!".data,
   "@".data, "#".data, "$".data, "%".data, "^".data, "&".data]

def charSubsLookup (c : Char) : Option (List Char) :=
  (charSubstitutions.find? (fun p => p.1 == c)).map Prod.snd

def leetLookup (c : Char) : Option Char :=
  (leetSpeakMap.find? (fun p => p.1 == c)).map Prod.snd

/-- Python `set.add` on a set modelled as an insertion-ordered list
(CPython's set iteration order is modelled as insertion order). -/
def addVar (vs : List (List Char)) (v : List Char) : List (List Char) :=
  if vs.contains v then vs else vs ++ [v]

/-- The inner substitute loop shared by `_generate_substitution_variants` and
`_generate_unicode_variants`: add `word[:i] + sub + word[i+1:]` for each
substitute, breaking (inner loop only) once the set has `maxV` members. -/
def addSubsLoop (word : List Char) (i : ℕ) (maxV : ℕ) :
    List (List Char) → List Char → List (List Char)
  | vs, [] => vs
  | vs, sub :: rest =>
      let vs1 := addVar vs (word.take i ++ [sub] ++ word.drop (i + 1))
      if maxV ≤ vs1.length then vs1 else addSubsLoop word i maxV vs1 rest

/-- Python `str.replace` for single characters. -/
def replaceAll (s : List Char) (target repl : Char) : List Char :=
  s.map (fun c => if c = target then repl else c)

/-- Embeds `leet_word`: every plain letter replaced by its leet form, folding over the
leet-speak table in order. -/
def leetWordOf (word : List Char) : List Char :=
  leetSpeakMap.foldl (fun w p => replaceAll w p.2 p.1) word

/-- The curated `common_leet_variants` table. -/
def commonLeetVariants : List (List Char × List (List Char)) :=
  [("hello".data, ["h3llo".data, "he11o".data, "h311o".data, "h3ll0".data, "he1lo".data]),
   ("stupid".data, ["5tupid".data, "stup1d".data, "stup!d".data, "5tup1d".data]),
   ("idiot".data, ["1diot".data, "id!ot".data, "1d10t".data, "id10t".data]),
   ("hate".data, ["h4te".data, "ha7e".data, "h@te".data]),
   ("kill".data, ["k1ll".data, "ki11".data, "k!ll".data])]

/-- Membership of the `variants` set built by
`ObfuscationDetector._generate_substitution_variants`, listed in insertion
order: the word itself, the single-character substitutions (inner loop broken
at `maxV` members), the leet-speak rewriting, and the curated variants.  The
set CONTENTS are deterministic — the loop breaks test only the set's size,
which does not depend on CPython's iteration order. -/
def subsVariantPool (word : List Char) (maxV : ℕ := 20) : List (List Char) :=
  let vs := (List.range word.length).foldl
    (fun vs i =>
      match charSubsLookup (word.getD i ' ').toLower with
      | some subs => addSubsLoop word i maxV vs subs
      | none => vs)
    [word]
  let vs := addVar vs (leetWordOf word)
  let vs := match commonLeetVariants.find? (fun p => p.1 == word) with
    | some p => p.2.foldl addVar vs
    | none => vs
  vs

/-- Embeds `ObfuscationDetector._generate_substitution_variants`, with the
UNSPECIFIED CPython set iteration order of `list(variants)` made explicit:
`order` stands for the seed-randomized listing of the pool (admissible
instantiations permute it; `idiotLastOrder_perm` below certifies the one used
in the C9 counterexample), and `[:maxV]` then truncates.  Which variants
survive the truncation therefore depends on `order`. -/
def generate_substitution_variants_ordered
    (order : List (List Char) → List (List Char)) (word : List Char)
    (maxV : ℕ := 20) : List (List Char) :=
  (order (subsVariantPool word maxV)).take maxV

/-- One admissible run of `_generate_substitution_variants`: the insertion-
order instance (`order = id`).  Used where a single concrete run is
exhibited; order-dependent conclusions are drawn only from the parametric
version above. -/
def generate_substitution_variants (word : List Char) (maxV : ℕ := 20) :
    List (List Char) :=
  generate_substitution_variants_ordered id word maxV

/-- Embeds `ObfuscationDetector._generate_unicode_variants` (note: no truncation at
return, the `maxV` bound only breaks the inner loop). -/
def generate_unicode_variants (word : List Char) (maxV : ℕ := 10) :
    List (List Char) :=
  (List.range word.length).foldl
    (fun vs i =>
      match (unicodeVariantsMap.find? (fun p => p.1 == (word.getD i ' ').toLower)).map Prod.snd with
      | some subs => addSubsLoop word i maxV vs subs
      | none => vs)
    []

/-- One adjacent-character swap at index `i`. -/
def swapAdj (word : List Char) (i : ℕ) : List Char :=
  (word.set i (word.getD (i + 1) ' ')).set (i + 1) (word.getD i ' ')

def scrambleGo (word : List Char) (maxV : ℕ) :
    List ℕ → List (List Char) → List (List Char)
  | [], vs => vs
  | i :: rest, vs =>
      let vs1 := addVar vs (swapAdj word i)
      if maxV ≤ vs1.length then vs1 else scrambleGo word maxV rest vs1

/-- Embeds `ObfuscationDetector._generate_scrambled_variants` — adjacent swaps,
breaking at `maxV` set members. -/
def generate_scrambled_variants (word : List Char) (maxV : ℕ := 5) :
    List (List Char) :=
  scrambleGo word maxV (List.range (word.length - 1)) []

/-- Embeds `re.compile(re.escape(pat), re.IGNORECASE).finditer(text)` — starting
offsets of the non-overlapping left-to-right literal occurrences.  Callers
pass both sides lowercased, which models `IGNORECASE` for this code's inputs. -/
def findIterGo (pat : List Char) : ℕ → List Char → ℕ → List ℕ
  | 0, _, _ => []
  | _, [], _ => []
  | fuel + 1, c :: rest, pos =>
      if pat.isPrefixOf (c :: rest) then
        pos :: findIterGo pat fuel (rest.drop (pat.length - 1)) (pos + pat.length)
      else findIterGo pat fuel rest (pos + 1)

/-- All (non-overlapping) literal occurrences of `pat` in `text`; the empty
pattern matches at every offset, as in Python's `re`.  The fuel argument
(`text.length`, an upper bound on the number of scan steps) keeps the
recursion structural. -/
def findIter (pat text : List Char) : List ℕ :=
  match pat with
  | [] => List.range (text.length + 1)
  | _ => findIterGo pat text.length text 0

/-- Embeds `ObfuscationMatch` (the `transformation_used` description is carried as
text so that dataclass equality — used by `list.remove` — distinguishes the
same fields Python does). -/
structure OMatch where
  original_word : List Char
  obfuscated_text : List Char
  confidence : ℚ
  obfuscation_type : String
  position : ℕ × ℕ
  transformation : List Char
deriving DecidableEq, Repr

/-- Embeds `ObfuscationDetector._calculate_substitution_confidence`.  (Python would
raise on an empty `original`; the `ℚ` division by zero yields 0, below every
confidence threshold, so such candidates are discarded either way.) -/
def calculate_substitution_confidence (obfuscated original : List Char) : ℚ :=
  if obfuscated.length ≠ original.length then 0
  else
    let pairs := (lowerL obfuscated).zip (lowerL original)
    let m := (pairs.filter (fun p => p.1 == p.2)).length
    let s := (pairs.filter (fun p =>
      !(p.1 == p.2) &&
        ((match charSubsLookup p.2 with
          | some subs => subs.contains p.1
          | none => false) ||
         (match leetLookup p.1 with
          | some n => n == p.2
          | none => false)))).length
    min 1 (((m : ℚ) + (8 / 10) * (s : ℚ)) / (original.length : ℚ))

/-- Embeds `ObfuscationDetector._detect_character_substitution`, parametric
in the substitution-variant set order. -/
def detect_character_substitution_ordered
    (order : List (List Char) → List (List Char)) (text target : List Char) :
    List OMatch :=
  (generate_substitution_variants_ordered order target).flatMap (fun variant =>
    let conf := calculate_substitution_confidence variant target
    (findIter (lowerL variant) (lowerL text)).filterMap (fun s =>
      if conf > 3 / 5 then
        some { original_word := target,
               obfuscated_text := (text.drop s).take variant.length,
               confidence := conf,
               obfuscation_type := "character_substitution",
               position := (s, s + variant.length),
               transformation := target ++ " -> ".data ++ variant }
      else none))

/-- Insertion-order instance of `_detect_character_substitution`. -/
def detect_character_substitution (text target : List Char) : List OMatch :=
  detect_character_substitution_ordered id text target

/-- Python `sep.join(word)` over the characters of `word`. -/
def joinWith (sep : List Char) : List Char → List Char
  | [] => []
  | [c] => [c]
  | c :: rest => c :: (sep ++ joinWith sep rest)

/-- Embeds `ObfuscationDetector._detect_spacing_obfuscation`. -/
def detect_spacing_obfuscation (text target : List Char) : List OMatch :=
  let pats := [joinWith " ".data target, joinWith " . ".data target,
               joinWith " - ".data target, joinWith " _ ".data target] ++
    commonSeparators.map (fun sep => joinWith sep target)
  pats.flatMap (fun pat =>
    (findIter (lowerL pat) (lowerL text)).map (fun s =>
      { original_word := target,
        obfuscated_text := (text.drop s).take pat.length,
        confidence := 4 / 5,
        obfuscation_type := "spacing_obfuscation",
        position := (s, s + pat.length),
        transformation := "spaced with ".data ++ pat }))

/-- Python's `\w` (`[^\w]` stripping in `_calculate_mixed_confidence`):
ASCII alphanumerics, underscore, and the non-ASCII characters of this code's
tables that are unicode letters (all of them except the listed symbols). -/
def isWordChar (c : Char) : Bool :=
  c.isAlphanum || c == '_' ||
    (127 < c.toNat && !(['×', '§', '°', '€'].contains c))

/-- Embeds `ObfuscationDetector._calculate_mixed_confidence`. -/
def calculate_mixed_confidence (obfuscated original : List Char) : ℚ :=
  let cleaned := (lowerL obfuscated).filter isWordChar
  if cleaned.length = 0 then 0
  else
    let sim := difflib_ratio cleaned (lowerL original)
    let sepCount := obfuscated.length - cleaned.length
    let penalty := min (3 / 10 : ℚ) ((sepCount : ℚ) * (5 / 100))
    max 0 (sim - penalty)

/-- Embeds `ObfuscationDetector._detect_mixed_obfuscation`, parametric in
the substitution-variant set order (its `base_variants[:10]` is an
order-dependent subset of the same set). -/
def detect_mixed_obfuscation_ordered
    (order : List (List Char) → List (List Char)) (text target : List Char) :
    List OMatch :=
  ((generate_substitution_variants_ordered order target).take 10).flatMap (fun variant =>
    [" ".data, ".".data, "-".data, "_".data].flatMap (fun sep =>
      let spaced := joinWith sep variant
      let conf := calculate_mixed_confidence spaced target
      (findIter (lowerL spaced) (lowerL text)).filterMap (fun s =>
        if conf > 1 / 2 then
          some { original_word := target,
                 obfuscated_text := (text.drop s).take spaced.length,
                 confidence := conf,
                 obfuscation_type := "mixed_obfuscation",
                 position := (s, s + spaced.length),
                 transformation := "substitution + spacing: ".data ++ spaced }
        else none)))

/-- Insertion-order instance of `_detect_mixed_obfuscation`. -/
def detect_mixed_obfuscation (text target : List Char) : List OMatch :=
  detect_mixed_obfuscation_ordered id text target

/-- Embeds `ObfuscationDetector._detect_unicode_variants` — sliding-window
sequence-similarity scan at threshold 0.7. -/
def detect_unicode_variants (text target : List Char) : List OMatch :=
  (generate_unicode_variants target).flatMap (fun variant =>
    if text.length < variant.length then []
    else
      (List.range (text.length - variant.length + 1)).filterMap (fun i =>
        let substring := (text.drop i).take variant.length
        let sim := difflib_ratio (lowerL variant) (lowerL substring)
        if sim > 7 / 10 then
          some { original_word := target,
                 obfuscated_text := substring,
                 confidence := sim,
                 obfuscation_type := "unicode_variants",
                 position := (i, i + variant.length),
                 transformation := "unicode variant: ".data ++ variant }
        else none))

/-- Embeds `ObfuscationDetector._detect_scrambled_text`. -/
def detect_scrambled_text (text target : List Char) : List OMatch :=
  let rev := target.reverse
  ((findIter (lowerL rev) (lowerL text)).map (fun s =>
    { original_word := target,
      obfuscated_text := (text.drop s).take rev.length,
      confidence := 4 / 5,
      obfuscation_type := "reversed_text",
      position := (s, s + rev.length),
      transformation := "reversed: ".data ++ rev })) ++
  (if target.length ≤ 6 then
    ((generate_scrambled_variants target).take 5).flatMap (fun variant =>
      (findIter (lowerL variant) (lowerL text)).map (fun s =>
        { original_word := target,
          obfuscated_text := (text.drop s).take variant.length,
          confidence := 3 / 5,
          obfuscation_type := "scrambled_text",
          position := (s, s + variant.length),
          transformation := "scrambled: ".data ++ variant }))
  else [])

/-- Embeds `ObfuscationDetector._find_obfuscated_word` — union of the five
detectors — parametric in the substitution-variant set order.  The unicode
and scramble variant sets are order-robust in membership (`_generate_unicode_variants`
returns its whole set, and a ≤6-letter word has at most 5 adjacent swaps), so
their residual listing order affects only which of identically-confident
duplicate matches survives deduplication, never the surviving match's word,
type, span or confidence. -/
def find_obfuscated_word_ordered
    (order : List (List Char) → List (List Char)) (text target : List Char) :
    List OMatch :=
  detect_character_substitution_ordered order text target ++
  detect_spacing_obfuscation text target ++
  detect_mixed_obfuscation_ordered order text target ++
  detect_unicode_variants text target ++
  detect_scrambled_text text target

/-- Insertion-order instance of `_find_obfuscated_word`. -/
def find_obfuscated_word (text target : List Char) : List OMatch :=
  find_obfuscated_word_ordered id text target

/-- Embeds `ObfuscationDetector._positions_overlap`. -/
def positions_overlap (p1 p2 : ℕ × ℕ) : Bool :=
  !(decide (p1.2 ≤ p2.1) || decide (p2.2 ≤ p1.1))

/-- Stable insertion (`x` goes before the first `y` with `le x y`); folded from
the right this gives a stable sort, modelling Python's `sorted`. -/
def insertLe (le : α → α → Bool) (x : α) : List α → List α
  | [] => [x]
  | y :: ys => if le x y then x :: y :: ys else y :: insertLe le x ys

/-- Stable sort by a (total) boolean comparison. -/
def sortLe (le : α → α → Bool) (l : List α) : List α := l.foldr (insertLe le) []

/-- One iteration of the `_deduplicate_matches` outer loop: scan the kept list
for the first same-word overlapping match; keep the newcomer only when its
confidence is strictly higher (removing the clashing entry, `list.remove`). -/
def dedupStep (kept : List OMatch) (m : OMatch) : List OMatch :=
  match kept.find? (fun e =>
      positions_overlap m.position e.position && m.original_word == e.original_word) with
  | none => kept ++ [m]
  | some e => if e.confidence < m.confidence then kept.erase e ++ [m] else kept

/-- Embeds `ObfuscationDetector._deduplicate_matches` — candidates sorted by start
offset, then greedily filtered. -/
def deduplicate_matches (ms : List OMatch) : List OMatch :=
  (sortLe (fun a b => decide (a.position.1 ≤ b.position.1)) ms).foldl dedupStep []

/-- Embeds `ObfuscationDetector.detect_obfuscated_words` — the detection
entry point — parametric in the substitution-variant set order. -/
def detect_obfuscated_words_ordered
    (order : List (List Char) → List (List Char)) (text : List Char)
    (target_words : List (List Char)) : List OMatch :=
  sortLe (fun a b => decide (b.confidence ≤ a.confidence))
    (deduplicate_matches (target_words.flatMap
      (fun w => find_obfuscated_word_ordered order text (lowerL w))))

/-- Insertion-order instance of `detect_obfuscated_words`: one admissible run
of the entry point. -/
def detect_obfuscated_words (text : List Char) (target_words : List (List Char)) :
    List OMatch :=
  detect_obfuscated_words_ordered id text target_words






/-! ## Behavioral Pattern Tracker (src/ai/detection/pattern_analyzer.py) -/

/-- Python `\s` (ASCII part; none of the analysed inputs contain non-ASCII
whitespace). -/
def isSpaceChar (c : Char) : Bool :=
  c == ' ' || c == '\t' || c == '\n' || c == '\r' || c == '\x0b' || c == '\x0c'

/-- Python `\w` for the pattern-rule regexes (ASCII alphanumerics and
underscore suffice for the words those rules scan). -/
def isWordCharAscii (c : Char) : Bool := c.isAlphanum || c == '_'

/-- A token of the (tiny) regex fragment used by the pattern rules:
a literal, `\s+`, or `\w+`. -/
inductive RToken
  | lit (s : List Char)
  | ws
  | word
deriving DecidableEq, Repr

/-- Greedy matcher for a token sequence at the head of `t`.  Greedy matching
is exact for the rules' patterns: every `\s+` is followed by a letter literal
or by `\w+` (whose characters are not whitespace), and every `\w+` is final. -/
def matchTokensFrom : List RToken → List Char → Bool
  | [], _ => true
  | RToken.lit s :: rest, t => s.isPrefixOf t && matchTokensFrom rest (t.drop s.length)
  | RToken.ws :: rest, t =>
      let sp := t.takeWhile isSpaceChar
      !sp.isEmpty && matchTokensFrom rest (t.drop sp.length)
  | RToken.word :: rest, t =>
      let w := t.takeWhile isWordCharAscii
      !w.isEmpty && matchTokensFrom rest (t.drop w.length)

/-- Embeds `re.search(pattern, message, re.IGNORECASE)` for the token patterns:
a match may start at any offset (both sides lowercased). -/
def regexSearch (toks : List RToken) (text : List Char) : Bool :=
  (List.range (text.length + 1)).any (fun i => matchTokensFrom toks ((lowerL text).drop i))

/-- The five `REPETITIVE_HARASSMENT` keyword regexes, as token sequences,
paired with their source text (used for the evidence strings). -/
def repetitionKeywords : List (String × List RToken) :=
  [("you\\s+always\\s+\\w+",
    [RToken.lit "you".data, RToken.ws, RToken.lit "always".data, RToken.ws, RToken.word]),
   ("every\\s+time\\s+you",
    [RToken.lit "every".data, RToken.ws, RToken.lit "time".data, RToken.ws, RToken.lit "you".data]),
   ("you\\s+never\\s+\\w+",
    [RToken.lit "you".data, RToken.ws, RToken.lit "never".data, RToken.ws, RToken.word]),
   ("typical\\s+\\w+",
    [RToken.lit "typical".data, RToken.ws, RToken.word]),
   ("as\\s+usual",
    [RToken.lit "as".data, RToken.ws, RToken.lit "usual".data])]

/-- The `ESCALATING_THREATS` 3-tier escalation-word ladder. -/
def escalationWords : List (List (List Char)) :=
  [["annoying".data, "stupid".data, "hate".data],
   ["hurt".data, "destroy".data, "kill".data],
   ["find you".data, "get you".data, "pay for this".data]]

/-- Embeds `UserBehaviorProfile` (dataclass). -/
structure UserBehaviorProfile where
  user_id : String
  message_count : ℕ := 0
  abusive_message_count : ℕ := 0
  target_users : List String := []
  time_patterns : List ℚ := []
  platform_activity : List (String × ℕ) := []
  escalation_score : ℚ := 0
  last_activity : Option ℚ := none
deriving DecidableEq, Repr

/-- The context dict passed to `analyze_message_patterns` (only the fields the
embedded rules read). -/
structure MsgContext where
  user_id : Option String := none
  target_id : Option String := none
  conversation_id : Option String := none
  platform : Option String := none
  timestamp : Option ℚ := none
deriving DecidableEq, Repr, Inhabited

/-- Embeds `PatternMatch` (dataclass; `temporal_data` is not read by the embedded
rules and is omitted). -/
structure PatternMatch where
  pattern_type : String
  confidence : ℚ
  evidence : List String
  severity : ℕ
  description : String
  behavioral_indicators : List String := []
deriving DecidableEq, Repr

/-- The analyzer's mutable stores (Python dicts as insertion-ordered
association lists). -/
structure AnalyzerState where
  user_profiles : List (String × UserBehaviorProfile) := []
  conversation_history : List (String × List (List Char × MsgContext)) := []
deriving DecidableEq, Repr

/-- Association-list lookup (`dict.get`). -/
def assocFind [BEq k] (l : List (k × v)) (key : k) : Option v :=
  (l.find? (fun p => p.1 == key)).map Prod.snd

/-- Association-list update (`dict[key] = val`): replace the first binding of
`key`, else append (Python dicts keep the insertion position on update). -/
def assocSet [BEq k] : List (k × v) → k → v → List (k × v)
  | [], key, val => [(key, val)]
  | p :: rest, key, val =>
      if p.1 == key then (key, val) :: rest else p :: assocSet rest key val

/-- Embeds `PatternAnalyzer._update_user_profile` (`now` models `time.time()`, the
default used when the context carries no timestamp). -/
def update_user_profile (st : AnalyzerState) (_message : List Char)
    (ctx : MsgContext) (now : ℚ) : AnalyzerState :=
  let user_id := ctx.user_id.getD "anonymous"
  let timestamp := ctx.timestamp.getD now
  let platform := ctx.platform.getD "unknown"
  let profile := (assocFind st.user_profiles user_id).getD { user_id := user_id }
  let profile := { profile with
    message_count := profile.message_count + 1,
    time_patterns := profile.time_patterns ++ [timestamp],
    last_activity := some timestamp,
    platform_activity := assocSet profile.platform_activity platform
      (((assocFind profile.platform_activity platform).getD 0) + 1) }
  let profile := { profile with target_users :=
    match ctx.target_id with
    | some t =>
        if t ≠ "" ∧ profile.target_users.contains t = false then
          profile.target_users ++ [t]
        else profile.target_users
    | none => profile.target_users }
  let tp := profile.time_patterns
  let profile := if 100 < tp.length then
      { profile with time_patterns := tp.drop (tp.length - 100) }
    else profile
  { st with user_profiles := assocSet st.user_profiles user_id profile }

/-- Embeds `PatternAnalyzer._check_repetitive_harassment` — note that
`recent_messages` filters the profile's `time_patterns`, which records every
message of the user regardless of its target. -/
def check_repetitive_harassment (st : AnalyzerState) (message : List Char)
    (ctx : MsgContext) (now : ℚ) : Option PatternMatch :=
  let user_id := ctx.user_id.getD "anonymous"
  let timestamp := ctx.timestamp.getD now
  match ctx.target_id with
  | none => none
  | some target_id =>
      if target_id = "" then none
      else
        match assocFind st.user_profiles user_id with
        | none => none
        | some profile =>
            let evidence := repetitionKeywords.filterMap (fun p =>
              if regexSearch p.2 message then
                some ("Repetitive pattern: " ++ p.1)
              else none)
            let recent := profile.time_patterns.filter
              (fun t => timestamp - t < 3600)
            if 3 ≤ recent.length ∧ evidence ≠ [] then
              some { pattern_type := "repetitive_harassment",
                     confidence := min (9 / 10)
                       ((recent.length : ℚ) / 10 + (evidence.length : ℚ) * (2 / 10)),
                     evidence := evidence,
                     severity := 3,
                     description := "Repeated targeting of individual with similar messages",
                     behavioral_indicators :=
                       ["Sent " ++ toString recent.length ++ " messages in time window",
                        "Targeting user " ++ target_id ++ " repeatedly"] }
            else none

/-- Python `needle in haystack` for strings (substring containment; the empty
needle is contained everywhere). -/
def containsSub (needle hay : List Char) : Bool := !(findIter needle hay).isEmpty

/-- Embeds `PatternAnalyzer._get_threat_level` — the first (lowest) tier whose word
list has a member occurring in the lowercased message; `-1` when none does. -/
def get_threat_level (message : List Char) (escalation_words : List (List (List Char))) : ℤ :=
  let ml := lowerL message
  match (List.range escalation_words.length).find? (fun lvl =>
      (escalation_words.getD lvl []).any (fun w => containsSub w ml)) with
  | some lvl => (lvl : ℤ)
  | none => -1

/-- Embeds `PatternAnalyzer._check_escalating_threats` — fires when any of the last
five history messages has a (detected) threat level strictly below the current
message's level. -/
def check_escalating_threats (st : AnalyzerState) (message : List Char)
    (ctx : MsgContext) (_now : ℚ) : Option PatternMatch :=
  let user_id := ctx.user_id.getD "anonymous"
  match assocFind st.user_profiles user_id with
  | none => none
  | some _ =>
      let current_level := get_threat_level message escalationWords
      if current_level = -1 then none
      else
        let conversation_id := ctx.conversation_id.getD (user_id ++ "_default")
        let history := (assocFind st.conversation_history conversation_id).getD []
        let lastFive := history.drop (history.length - 5)
        let evidence := lastFive.filterMap (fun pm =>
          let prev_level := get_threat_level pm.1 escalationWords
          if prev_level ≠ -1 ∧ prev_level < current_level then
            some ("Escalation from level " ++ toString prev_level ++
              " to " ++ toString current_level)
          else none)
        if evidence ≠ [] then
          some { pattern_type := "escalating_threats",
                 confidence := if 2 ≤ evidence.length then 4 / 5 else 3 / 5,
                 evidence := evidence,
                 severity := 4,
                 description := "Progressive escalation in threat level",
                 behavioral_indicators :=
                   ["Threat level escalated to " ++ toString current_level,
                    "Pattern detected in conversation " ++ conversation_id] }
        else none

/-! ## Risk Fusion (src/ai/main_engine.py `TypeAwareEngine._calculate_overall_risk`)
and the Stream Scheduler's own risk computation
(src/ai/real_time/stream_processor.py `StreamProcessor._calculate_overall_risk`). -/

/-- The content-detector signal consumed by risk fusion (`risk_score` on the
0–100 scale, `confidence` on 0–1). -/
structure ContentResultSig where
  risk_score : ℚ
  confidence : ℚ
deriving DecidableEq, Repr

/-- The sentiment signal. -/
structure SentimentResultSig where
  toxicity_score : ℚ
  confidence : ℚ
deriving DecidableEq, Repr

/-- One behavioural pattern result as risk fusion reads it
(`confidence`, `severity`). -/
structure PatternSig where
  confidence : ℚ
  severity : ℕ
deriving DecidableEq, Repr

/-- One obfuscation match as risk fusion reads it. -/
structure ObfSig where
  confidence : ℚ
deriving DecidableEq, Repr

/-- The context-analysis signal (its `risk_modifiers` dict). -/
structure ContextResultSig where
  risk_modifiers : List (String × ℚ)
deriving DecidableEq, Repr

/-- The risk-factor and confidence-factor lists collected by
`TypeAwareEngine._calculate_overall_risk` (in the source's append order). -/
def engineSignals (content : Option ContentResultSig)
    (sentiment : Option SentimentResultSig) (patterns : List PatternSig)
    (obf : List ObfSig) : List ℚ × List ℚ :=
  let rf : List ℚ := []
  let cf : List ℚ := []
  let rf := match content with
    | some c => rf ++ [c.risk_score / 100]
    | none => rf
  let cf := match content with
    | some c => cf ++ [c.confidence]
    | none => cf
  let rf := match sentiment with
    | some s => rf ++ [s.toxicity_score]
    | none => rf
  let cf := match sentiment with
    | some s => cf ++ [s.confidence]
    | none => cf
  let pr := patterns.foldl
    (fun (acc : ℚ × ℚ) p =>
      (max acc.1 (p.confidence * ((p.severity : ℚ) / 4)), max acc.2 p.confidence))
    (0, 0)
  let rf := if patterns ≠ [] ∧ 0 < pr.1 then rf ++ [pr.1] else rf
  let cf := if patterns ≠ [] ∧ 0 < pr.1 then cf ++ [pr.2] else cf
  let ob := obf.foldl
    (fun (acc : ℚ × ℚ) m => (max acc.1 (m.confidence * (8 / 10)), max acc.2 m.confidence))
    (0, 0)
  let rf := if obf ≠ [] ∧ 0 < ob.1 then rf ++ [ob.1] else rf
  let cf := if obf ≠ [] ∧ 0 < ob.1 then cf ++ [ob.2] else cf
  (rf, cf)

/-- The engine's context multiplier: `intent_risk` multiplies directly,
`platform_adjustment` multiplies by `1 + 0.2·value`. -/
def engineContextMultiplier (contextR : Option ContextResultSig) : ℚ :=
  match contextR with
  | none => 1
  | some c =>
      c.risk_modifiers.foldl
        (fun m p =>
          if p.1 = "intent_risk" then m * p.2
          else if p.1 = "platform_adjustment" then m * (1 + p.2 * (2 / 10))
          else m)
        1

/-- The final-score step of `TypeAwareEngine._calculate_overall_risk`:
sort factors descending, weight the two largest 0.6/0.4, add
`0.1 · mean(rest)`, multiply by the context modifier, cap at 1. -/
def engineFinalRisk (risk_factors : List ℚ) (context_modifier : ℚ) : ℚ :=
  if risk_factors ≠ [] then
    let sorted := sortLe (fun a b : ℚ => decide (b ≤ a)) risk_factors
    let base := if 2 ≤ sorted.length then
        sorted.getD 0 0 * (6 / 10) + sorted.getD 1 0 * (4 / 10)
      else sorted.getD 0 0
    let base := if 2 < sorted.length then
        base + (sorted.drop 2).sum * (1 / 10) / ((sorted.drop 2).length : ℚ)
      else base
    min 1 (base * context_modifier)
  else 0

/-- Risk-level thresholds shared by the engine (on the 0–1 scale). -/
def engineRiskLevel (final_risk : ℚ) : String :=
  if 8 / 10 ≤ final_risk then "CRITICAL"
  else if 6 / 10 ≤ final_risk then "HIGH"
  else if 3 / 10 ≤ final_risk then "MEDIUM"
  else if 1 / 10 < final_risk then "LOW"
  else "MINIMAL"

/-- Embeds `TypeAwareEngine._calculate_overall_risk` — returns
`(final_risk, risk_level, avg_confidence)`. -/
def engine_calculate_overall_risk (content : Option ContentResultSig)
    (sentiment : Option SentimentResultSig) (patterns : List PatternSig)
    (obf : List ObfSig) (contextR : Option ContextResultSig) : ℚ × String × ℚ :=
  let sigs := engineSignals content sentiment patterns obf
  let final_risk := engineFinalRisk sigs.1 (engineContextMultiplier contextR)
  let avg_confidence := if sigs.2 ≠ [] then sigs.2.sum / (sigs.2.length : ℚ) else 0
  (final_risk, engineRiskLevel final_risk, avg_confidence)

/-- Embeds `StreamProcessor._calculate_overall_risk` — the worker pipeline's own risk
computation: a plain average of the collected factors (no 0.6/0.4 rank
weighting, no obfuscation factor, `platform_adjustment` multiplies by
`1 + value`). -/
def stream_calculate_overall_risk (content : Option ContentResultSig)
    (sentiment : Option SentimentResultSig) (patterns : List PatternSig)
    (contextR : Option ContextResultSig) : ℚ :=
  let rf : List ℚ := []
  let rf := match content with
    | some c => rf ++ [c.risk_score / 100]
    | none => rf
  let rf := match sentiment with
    | some s => rf ++ [s.toxicity_score]
    | none => rf
  let rf := if patterns ≠ [] then
      rf ++ [patterns.foldl (fun acc p => max acc (p.confidence * ((p.severity : ℚ) / 4))) 0]
    else rf
  let cm := match contextR with
    | none => 1
    | some c =>
        if c.risk_modifiers ≠ [] then
          c.risk_modifiers.foldl
            (fun m p =>
              if p.1 = "intent_risk" then m * p.2
              else if p.1 = "platform_adjustment" then m * (1 + p.2)
              else m)
            1
        else 1
  if rf ≠ [] then min 1 (rf.sum / (rf.length : ℚ) * cm) else 0

/-! ## Category Detector (src/ai/detection/content_detection_engine.py) -/

/-- Embeds `Detection` (dataclass; `match` is a Lean keyword, so the field is named
`matched`). -/
structure Detection where
  detection_type : String
  category : String
  severity : ℕ
  matched : List Char
  position : ℕ
  confidence : ℚ
  method : String
  actual_word : Option (List Char) := none
deriving DecidableEq, Repr

/-- Embeds `DetectionResult` (dataclass). -/
structure DetectionResult where
  is_abusive : Bool
  risk_score : ℚ
  risk_level : String
  detections : List Detection
  suggestions : List String
  categories : List String
  confidence : ℚ
  processing_time : ℚ
deriving DecidableEq, Repr

/-- Python `str.split()` — tokens separated by runs of whitespace (the fuel,
`s.length`, bounds the scan and keeps the recursion structural). -/
def pySplitGo : ℕ → List Char → List (List Char)
  | 0, _ => []
  | fuel + 1, t =>
      let t1 := t.dropWhile isSpaceChar
      match t1 with
      | [] => []
      | _ =>
          t1.takeWhile (fun c => !isSpaceChar c) ::
            pySplitGo fuel (t1.dropWhile (fun c => !isSpaceChar c))

def pySplit (s : List Char) : List (List Char) := pySplitGo (s.length + 1) s

/-- Round half to even at two decimals, modelling Python `round(x, 2)`
(idealised to exact rational arithmetic). -/
def round2 (q : ℚ) : ℚ :=
  let x := q * 100
  let f := ⌊x⌋
  let r := x - (f : ℚ)
  let n := if r < 1 / 2 then f
    else if 1 / 2 < r then f + 1
    else if f % 2 = 0 then f else f + 1
  (n : ℚ) / 100

/-- Embeds `ContentDetectionEngine._generate_suggestions` (the per-category
remediation strings; iterated over the insertion-ordered category set). -/
def suggestionMap : List (String × String) :=
  [("harassment", "Consider using more respectful language when expressing disagreement."),
   ("hate_speech", "Please avoid language that targets or discriminates against groups of people."),
   ("spam", "Focus on genuine communication rather than promotional content."),
   ("threats", "Express your feelings without threatening language or implications of harm."),
   ("cyberbullying", "Try to communicate constructively rather than attacking the person."),
   ("sexual_harassment", "Keep your communication appropriate and professional.")]

def generate_suggestions (ds : List Detection) : List String :=
  ((ds.map (fun d => d.category)).dedup).filterMap (fun c => assocFind suggestionMap c)

/-- Embeds `ContentDetectionEngine._create_empty_result`. -/
def create_empty_result (processing_time : ℚ) : DetectionResult :=
  { is_abusive := false, risk_score := 0, risk_level := "NONE", detections := [],
    suggestions := [], categories := [], confidence := 1,
    processing_time := processing_time }

/-- Embeds `ContentDetectionEngine._calculate_risk_score` (the unused `context`
argument is kept for signature fidelity). -/
def calculate_risk_score (ds : List Detection) (text : List Char)
    (_context : List (String × String)) : DetectionResult :=
  if ds = [] then create_empty_result 0
  else
    let total_severity := (ds.map (fun d => (d.severity : ℚ) * d.confidence)).sum
    let max_possible_severity : ℚ := (ds.length : ℚ) * 4
    let base_score := if 0 < max_possible_severity then
        total_severity / max_possible_severity * 100
      else 0
    let text_length := (pySplit text).length
    let detection_density := if 0 < text_length then
        (ds.length : ℚ) / (text_length : ℚ)
      else 0
    let density_multiplier := min (3 / 2) (1 + detection_density * 2)
    let final_score := min 100 (base_score * density_multiplier)
    let risk_level := if 80 ≤ final_score then "CRITICAL"
      else if 60 ≤ final_score then "HIGH"
      else if 30 ≤ final_score then "MEDIUM"
      else if 0 < final_score then "LOW"
      else "NONE"
    let categories := (ds.map (fun d => d.category)).dedup
    let avg_confidence := (ds.map (fun d => d.confidence)).sum / (ds.length : ℚ)
    { is_abusive := decide (0 < final_score),
      risk_score := round2 final_score,
      risk_level := risk_level,
      detections := ds,
      suggestions := generate_suggestions ds,
      categories := categories,
      confidence := round2 avg_confidence,
      processing_time := 0 }

/-- The engine's mutable state: the bounded FIFO result cache plus the
statistics counters. -/
structure EngineState where
  detection_cache : List ((List Char × String) × DetectionResult) := []
  max_cache_size : ℕ := 1000
  total_scanned : ℕ := 0
  threats_detected : ℕ := 0
  categories_count : List (String × ℕ) := []
  cache_hits : ℕ := 0
  cache_misses : ℕ := 0
deriving DecidableEq, Repr

/-- Embeds `ContentDetectionEngine._generate_cache_key` — built from the first 100
characters of the text and the serialized context (Python hashes both parts;
equal parts give an equal key, which is what the cache relies on). -/
def generate_cache_key (text : List Char) (contextStr : String) :
    List Char × String :=
  (text.take 100, contextStr)

/-- Embeds `ContentDetectionEngine._cache_result` — FIFO eviction of the oldest
entry once the cache is full, then insert. -/
def cache_result (st : EngineState) (key : List Char × String)
    (result : DetectionResult) : EngineState :=
  let cache := if st.max_cache_size ≤ st.detection_cache.length then
      st.detection_cache.drop 1
    else st.detection_cache
  { st with detection_cache := cache ++ [(key, result)] }

/-- Embeds `ContentDetectionEngine._update_stats`. -/
def engine_update_stats (st : EngineState) (r : DetectionResult) : EngineState :=
  if r.is_abusive then
    { st with
      threats_detected := st.threats_detected + 1
      categories_count := r.categories.foldl
        (fun m c => assocSet m c ((assocFind m c).getD 0 + 1)) st.categories_count }
  else st

/-- Embeds `ContentDetectionEngine.detect_abusive_content` — the cache-aware entry
point.  `analyze` stands for the fresh-computation path (preprocessing, the
per-category scans and `_calculate_risk_score`), which the cache logic treats
as a black box; `elapsed` models the measured `time.time() - start_time`. -/
def detect_abusive_content (analyze : List Char → String → DetectionResult)
    (st : EngineState) (text : List Char) (contextStr : String) (elapsed : ℚ) :
    DetectionResult × EngineState :=
  let st := { st with total_scanned := st.total_scanned + 1 }
  if text = [] then (create_empty_result elapsed, st)
  else
    let key := generate_cache_key text contextStr
    match st.detection_cache.find? (fun p => p.1 == key) with
    | some p =>
        let updated := { p.2 with processing_time := elapsed }
        (updated,
         { st with
           cache_hits := st.cache_hits + 1
           detection_cache := assocSet st.detection_cache key updated })
    | none =>
        let st := { st with cache_misses := st.cache_misses + 1 }
        let result := { analyze text contextStr with processing_time := elapsed }
        (result, cache_result (engine_update_stats st result) key result)

/-! ## Stream Scheduler ingress (src/ai/real_time/stream_processor.py) -/

inductive MessagePriority
  | low
  | normal
  | high
  | critical
deriving DecidableEq, Repr

/-- Queue capacities from the `PriorityQueue(maxsize=…)` constructor calls. -/
def priorityMaxsize : MessagePriority → ℕ
  | .critical => 1000
  | .high => 2000
  | .normal => 5000
  | .low => 2000

/-- Embeds `StreamMessage` (the fields ingress writes). -/
structure StreamMessage where
  id : String
  content : List Char
  user_id : String
  platform : String
  timestamp : ℚ
  priority : MessagePriority
  status : String := "pending"
  retry_count : ℕ := 0
deriving DecidableEq, Repr

/-- The stream processor's state relevant to ingress: running flag, per-user
rate-limit windows, and the four bounded priority queues (entries are
`(-timestamp, message)` as enqueued by `add_message`). -/
structure StreamState where
  is_running : Bool := false
  rate_limits : List (String × (ℕ × ℚ)) := []
  rate_limit_window : ℚ := 60
  rate_limit_max : ℕ := 50
  queue_critical : List (ℚ × StreamMessage) := []
  queue_high : List (ℚ × StreamMessage) := []
  queue_normal : List (ℚ × StreamMessage) := []
  queue_low : List (ℚ × StreamMessage) := []
deriving DecidableEq, Repr

def queueOf (st : StreamState) : MessagePriority → List (ℚ × StreamMessage)
  | .critical => st.queue_critical
  | .high => st.queue_high
  | .normal => st.queue_normal
  | .low => st.queue_low

def enqueueAt (st : StreamState) (p : MessagePriority) (e : ℚ × StreamMessage) :
    StreamState :=
  match p with
  | .critical => { st with queue_critical := st.queue_critical ++ [e] }
  | .high => { st with queue_high := st.queue_high ++ [e] }
  | .normal => { st with queue_normal := st.queue_normal ++ [e] }
  | .low => { st with queue_low := st.queue_low ++ [e] }

def threatKeywords : List (List Char) :=
  ["kill".data, "murder".data, "hurt".data, "harm".data, "attack".data,
   "violence".data, "weapon".data]

def harassmentKeywords : List (List Char) :=
  ["hate".data, "stupid".data, "idiot".data, "kill yourself".data]

/-- Embeds `StreamProcessor._determine_priority` (`user_risk_score` models
`context.get('user_risk_score', 0)`). -/
def determine_priority (content : List Char) (_user_id : String)
    (user_risk_score : ℚ) : MessagePriority :=
  let cl := lowerL content
  if threatKeywords.any (fun k => containsSub k cl) then .critical
  else if 4 / 5 < user_risk_score then .high
  else if harassmentKeywords.any (fun k => containsSub k cl) then .high
  else if 500 < content.length ∨ 5 < content.count '!' then .high
  else .normal

/-- Embeds `StreamProcessor._is_rate_limited` — fixed window per user: reset when the
window has elapsed, report limited at `rate_limit_max` without mutating,
otherwise increment the count. -/
def stream_is_rate_limited (st : StreamState) (user_id : String) (now : ℚ) :
    Bool × StreamState :=
  match assocFind st.rate_limits user_id with
  | none =>
      (false, { st with rate_limits := assocSet st.rate_limits user_id (1, now) })
  | some cw =>
      if st.rate_limit_window < now - cw.2 then
        (false, { st with rate_limits := assocSet st.rate_limits user_id (1, now) })
      else if st.rate_limit_max ≤ cw.1 then (true, st)
      else
        (false,
         { st with rate_limits := assocSet st.rate_limits user_id (cw.1 + 1, cw.2) })

inductive AddError
  | not_running
  | queue_full
deriving DecidableEq, Repr

/-- Embeds `StreamProcessor.add_message` — `now` models `time.time()` and `freshId`
the generated `uuid4` string.  A rate-limited submission logs a warning and
returns the fresh message id (the same successful shape as an accepted
submission) without enqueueing; a full queue raises (`Except.error`). -/
def add_message (st : StreamState) (content : List Char)
    (user_id platform : String) (user_risk_score : ℚ) (now : ℚ)
    (freshId : String) : Except AddError String × StreamState :=
  if st.is_running = false then (.error .not_running, st)
  else
    let message_id := freshId
    let r := stream_is_rate_limited st user_id now
    if r.1 then (.ok message_id, r.2)
    else
      let st := r.2
      let priority := determine_priority content user_id user_risk_score
      let msg : StreamMessage :=
        { id := message_id, content := content, user_id := user_id,
          platform := platform, timestamp := now, priority := priority }
      if priorityMaxsize priority ≤ (queueOf st priority).length then
        (.error .queue_full, st)
      else (.ok message_id, enqueueAt st priority (-now, msg))


/-! ## Spec-side predicates and concrete scenario states -/

/-- Two matches may coexist exactly when they are for different target words
or their spans do not overlap (the deduplication contract of §4.2). -/
def okPair (a b : OMatch) : Prop :=
  a.original_word = b.original_word → positions_overlap a.position b.position = false

/-- Arithmetic mean (the spec's `mean(...)`). -/
def listMean (l : List ℚ) : ℚ := l.sum / (l.length : ℚ)

/-- The single match the Obfuscation Engine produces for scenario 2
(`"id!ot"` against `["idiot"]`). -/
def idiotMatch : OMatch :=
  { original_word := "idiot".data, obfuscated_text := "id!ot".data,
    confidence := 24 / 25, obfuscation_type := "character_substitution",
    position := (0, 5), transformation := "idiot -> id!ot".data }

/-- An admissible set iteration order for the C9 scenario: list the variants
that are not `id!ot` first, then `id!ot`.  Applied to the 24-member pool for
`idiot` this is a permutation (see `idiotLastOrder_perm`) under which `id!ot`
falls outside the `[:20]` truncation. -/
def idiotLastOrder (vs : List (List Char)) : List (List Char) :=
  vs.filter (fun v => !(v == "id!ot".data)) ++ vs.filter (fun v => v == "id!ot".data)

/-- A lower-confidence overlapping candidate for the same word (one of the
unicode-variant matches generated for the same scenario). -/
def idiotMatchLow : OMatch :=
  { original_word := "idiot".data, obfuscated_text := "id!ot".data,
    confidence := 4 / 5, obfuscation_type := "unicode_variants",
    position := (0, 5), transformation := "unicode variant: idιot".data }

/-- Contexts of the three-message trace used to probe the
repetitive-harassment rule: one user, three distinct targets, one hour. -/
def rhCtx1 : MsgContext :=
  { user_id := some "u1", target_id := some "tA", conversation_id := some "c1",
    timestamp := some 0 }

def rhCtx2 : MsgContext :=
  { user_id := some "u1", target_id := some "tB", conversation_id := some "c1",
    timestamp := some 60 }

def rhCtx3 : MsgContext :=
  { user_id := some "u1", target_id := some "tC", conversation_id := some "c1",
    timestamp := some 120 }

/-- Analyzer state after the user's three messages (each to a different
target) have been recorded by `_update_user_profile`. -/
def rhState : AnalyzerState :=
  update_user_profile
    (update_user_profile
      (update_user_profile {} "hi there".data rhCtx1 0)
      "hows it going".data rhCtx2 60)
    "you always lie".data rhCtx3 120

/-- Conversation state for the escalating-threats probe: two prior tier-0
messages (`annoying`), followed by the current tier-1 message. -/
def escState : AnalyzerState :=
  { user_profiles := [("u1", { user_id := "u1" })],
    conversation_history :=
      [("c1", [("you are annoying".data, rhCtx1), ("you are annoying".data, rhCtx2)])] }

def escCtx : MsgContext := { user_id := some "u1", conversation_id := some "c1" }

/-- A stream state whose user `u` has exhausted the rate limit
(50 messages counted, window opened at time 0, probe at time 10). -/
def rlState : StreamState := { is_running := true, rate_limits := [("u", (50, 0))] }

instance : DecidableEq (Except AddError String) := fun a b =>
  match a, b with
  | .ok x, .ok y => decidable_of_iff (x = y) (by simp)
  | .error x, .error y => decidable_of_iff (x = y) (by simp)
  | .ok _, .error _ => isFalse (by simp)
  | .error _, .ok _ => isFalse (by simp)

/-- Spec-side notion for C4: a strictly increasing sequence of threat tiers. -/
def strictlyIncreasing : List ℤ → Bool
  | a :: b :: rest => decide (a < b) && strictlyIncreasing (b :: rest)
  | _ => true

/-- Spec-side aggregate formula for C8:
`min(100, (Σ severity·confidence / (count·4)) × 100 × density_multiplier)` with
`density_multiplier = min(1.5, 1 + 2 × detections-per-word)`. -/
def categoryAggregateFormula (ds : List Detection) (text : List Char) : ℚ :=
  min 100 (((ds.map (fun d => (d.severity : ℚ) * d.confidence)).sum /
      ((ds.length : ℚ) * 4)) * 100 *
    min (3 / 2) (1 + 2 * ((ds.length : ℚ) / (((pySplit text).length : ℕ) : ℚ))))

/-! ## Helper lemmas: stable insertion sort -/

theorem mem_insertLe {le : α → α → Bool} {x a : α} {l : List α} :
    a ∈ insertLe le x l ↔ a = x ∨ a ∈ l := by
  induction l with
  | nil => simp [insertLe]
  | cons y ys ih =>
      simp only [insertLe]
      by_cases h : le x y = true
      · simp [h, List.mem_cons]
      · simp only [h, if_neg, Bool.false_eq_true, not_false_iff, ite_false,
          List.mem_cons, ih]
        tauto

theorem insertLe_perm (le : α → α → Bool) (x : α) (l : List α) :
    (insertLe le x l).Perm (x :: l) := by
  induction l with
  | nil => simp [insertLe]
  | cons y ys ih =>
      simp only [insertLe]
      by_cases h : le x y = true
      · simp [h]
      · simp only [h, Bool.false_eq_true, not_false_iff, ite_false]
        exact (ih.cons y).trans (List.Perm.swap x y ys)

theorem sortLe_perm (le : α → α → Bool) (l : List α) : (sortLe le l).Perm l := by
  induction l with
  | nil => simp [sortLe]
  | cons x xs ih => exact (insertLe_perm le x _).trans (ih.cons x)

theorem insertLe_pairwise {le : α → α → Bool}
    (htot : ∀ a b, le a b = false → le b a = true)
    (htrans : ∀ a b c, le a b = true → le b c = true → le a c = true)
    {x : α} {l : List α} (hl : l.Pairwise (fun a b => le a b = true)) :
    (insertLe le x l).Pairwise (fun a b => le a b = true) := by
  induction l with
  | nil => simp [insertLe]
  | cons y ys ih =>
      simp only [insertLe]
      by_cases h : le x y = true
      · rw [if_pos h]
        refine List.Pairwise.cons ?_ hl
        intro z hz
        rcases List.mem_cons.mp hz with rfl | hz
        · exact h
        · exact htrans x y z h (List.rel_of_pairwise_cons hl hz)
      · rw [if_neg h]
        refine List.Pairwise.cons ?_ (ih (List.Pairwise.of_cons hl))
        intro z hz
        rcases mem_insertLe.mp hz with h2 | hz
        · rw [h2]
          exact htot x y (by simpa using h)
        · exact List.rel_of_pairwise_cons hl hz

theorem sortLe_pairwise (le : α → α → Bool)
    (htot : ∀ a b, le a b = false → le b a = true)
    (htrans : ∀ a b c, le a b = true → le b c = true → le a c = true)
    (l : List α) : (sortLe le l).Pairwise (fun a b => le a b = true) := by
  induction l with
  | nil => simp [sortLe]
  | cons x xs ih => exact insertLe_pairwise htot htrans ih

/-! ## Helper lemmas: overlap and deduplication -/

theorem positions_overlap_comm (p q : ℕ × ℕ) :
    positions_overlap p q = positions_overlap q p := by
  simp [positions_overlap, Bool.or_comm]

theorem positions_overlap_true_iff {p q : ℕ × ℕ} :
    positions_overlap p q = true ↔ q.1 < p.2 ∧ p.1 < q.2 := by
  constructor
  · intro h
    simp only [positions_overlap, Bool.not_eq_eq_eq_not, Bool.not_true,
      Bool.or_eq_false_iff, decide_eq_false_iff_not, not_le] at h
    omega
  · intro h
    simp only [positions_overlap, Bool.not_eq_eq_eq_not, Bool.not_true,
      Bool.or_eq_false_iff, decide_eq_false_iff_not, not_le]
    omega

theorem okPair_symm : Symmetric okPair := by
  intro a b h hw
  rw [positions_overlap_comm]
  exact h hw.symm

theorem mem_dedupStep {kept : List OMatch} {m e : OMatch}
    (h : e ∈ dedupStep kept m) : e ∈ kept ∨ e = m := by
  unfold dedupStep at h
  split at h
  · rcases List.mem_append.mp h with h1 | h1
    · exact Or.inl h1
    · exact Or.inr (List.mem_singleton.mp h1)
  · split at h
    · rcases List.mem_append.mp h with h1 | h1
      · exact Or.inl (List.mem_of_mem_erase h1)
      · exact Or.inr (List.mem_singleton.mp h1)
    · exact Or.inl h

theorem dedupStep_pairwise {kept : List OMatch} {m : OMatch}
    (hk : kept.Pairwise okPair)
    (hb : ∀ e ∈ kept, e.position.1 ≤ m.position.1) :
    (dedupStep kept m).Pairwise okPair := by
  unfold dedupStep
  split
  case h_1 hf =>
      rw [List.pairwise_append]
      refine ⟨hk, List.pairwise_singleton _ _, ?_⟩
      intro a ha b hb'
      rw [List.mem_singleton] at hb'
      subst hb'
      intro hw
      have hnp := List.find?_eq_none.mp hf a ha
      rw [positions_overlap_comm]
      cases hov : positions_overlap b.position a.position
      · rfl
      · exact absurd (by simp [hov, hw]) hnp
  case h_2 e0 hf =>
      have he0 : e0 ∈ kept := List.mem_of_find?_eq_some hf
      have hpred := List.find?_some hf
      simp only [Bool.and_eq_true, beq_iff_eq] at hpred
      obtain ⟨hov0, hw0⟩ := hpred
      split
      case isTrue hc =>
        rw [List.pairwise_append]
        refine ⟨List.Pairwise.sublist (List.erase_sublist e0 kept) hk,
          List.pairwise_singleton _ _, ?_⟩
        intro f hf' b hb'
        rw [List.mem_singleton] at hb'
        subst hb'
        intro hw
        cases hovfm : positions_overlap f.position b.position
        · rfl
        · exfalso
          have hfk : f ∈ kept := List.mem_of_mem_erase hf'
          have hbf := hb f hfk
          have hbe0 := hb e0 he0
          have h1 := positions_overlap_true_iff.mp hovfm
          have h2 := positions_overlap_true_iff.mp hov0
          have hove : positions_overlap f.position e0.position = true :=
            positions_overlap_true_iff.mpr (by omega)
          obtain ⟨l1, l2, hne, hdecomp, herase⟩ := List.exists_erase_eq he0
          rw [herase] at hf'
          rw [hdecomp, List.pairwise_append] at hk
          obtain ⟨hp1, hp2, hcross⟩ := hk
          rcases List.mem_append.mp hf' with hf1 | hf2
          · have := hcross f hf1 e0 (List.mem_cons_self e0 l2)
            rw [this (hw.trans hw0)] at hove
            exact Bool.false_ne_true hove
          · have := List.rel_of_pairwise_cons hp2 hf2
            have hfe := this ((hw.trans hw0).symm)
            rw [positions_overlap_comm] at hfe
            rw [hfe] at hove
            exact Bool.false_ne_true hove
      case isFalse hc =>
        exact hk

theorem dedup_fold_pairwise :
    ∀ (rest kept : List OMatch),
      kept.Pairwise okPair →
      (∀ e ∈ kept, ∀ m ∈ rest, e.position.1 ≤ m.position.1) →
      rest.Pairwise (fun a b => a.position.1 ≤ b.position.1) →
      (rest.foldl dedupStep kept).Pairwise okPair := by
  intro rest
  induction rest with
  | nil =>
      intro kept hk _ _
      simpa using hk
  | cons m rest ih =>
      intro kept hk hb hs
      simp only [List.foldl_cons]
      apply ih
      · exact dedupStep_pairwise hk (fun e he => hb e he m (List.mem_cons_self m rest))
      · intro e he m' hm'
        rcases mem_dedupStep he with he' | he'
        · exact hb e he' m' (List.mem_cons_of_mem m hm')
        · rw [he']
          exact List.rel_of_pairwise_cons hs hm'
      · exact List.Pairwise.of_cons hs

theorem deduplicate_matches_pairwise (ms : List OMatch) :
    (deduplicate_matches ms).Pairwise okPair := by
  unfold deduplicate_matches
  apply dedup_fold_pairwise _ [] List.Pairwise.nil (by intro e he; cases he)
  have h := sortLe_pairwise (fun a b : OMatch => decide (a.position.1 ≤ b.position.1))
    (by intro a b hab; simp only [decide_eq_false_iff_not, not_le] at hab; simp; omega)
    (by intro a b c hab hbc; simp only [decide_eq_true_eq] at hab hbc; simp; omega)
    ms
  exact h.imp (fun hab => of_decide_eq_true hab)

theorem dedupStep_nil (m : OMatch) : dedupStep [] m = [m] := rfl

theorem dedupStep_clash {e m : OMatch}
    (hov : positions_overlap m.position e.position = true)
    (hw : m.original_word = e.original_word) :
    dedupStep [e] m = if e.confidence < m.confidence then [m] else [e] := by
  unfold dedupStep
  have hfind : List.find? (fun x =>
      positions_overlap m.position x.position && m.original_word == x.original_word)
      [e] = some e := by
    simp [List.find?, hov, hw]
  rw [hfind]
  dsimp only
  by_cases hc : e.confidence < m.confidence
  · rw [if_pos hc, if_pos hc]
    simp [List.erase_cons_head]
  · rw [if_neg hc, if_neg hc]

theorem deduplicate_matches_pair {m1 m2 : OMatch}
    (hw : m1.original_word = m2.original_word)
    (hov : positions_overlap m1.position m2.position = true)
    (hc : m2.confidence < m1.confidence) :
    deduplicate_matches [m1, m2] = [m1] ∧ deduplicate_matches [m2, m1] = [m1] := by
  have hov21 : positions_overlap m2.position m1.position = true := by
    rw [positions_overlap_comm]; exact hov
  have hsort : ∀ a b : OMatch,
      sortLe (fun x y : OMatch => decide (x.position.1 ≤ y.position.1)) [a, b] =
        if a.position.1 ≤ b.position.1 then [a, b] else [b, a] := by
    intro a b
    simp only [sortLe, List.foldr, insertLe]
    by_cases h : a.position.1 ≤ b.position.1
    · rw [if_pos h, if_pos (decide_eq_true h)]
    · rw [if_neg h, if_neg (by simpa using h)]
  have step2 : ∀ a b : OMatch,
      a.original_word = b.original_word →
      positions_overlap b.position a.position = true →
      List.foldl dedupStep [] [a, b] =
        if a.confidence < b.confidence then [b] else [a] := by
    intro a b hwab hovba
    simp only [List.foldl_cons, List.foldl_nil, dedupStep_nil]
    exact dedupStep_clash hovba hwab.symm
  constructor
  · unfold deduplicate_matches
    rw [hsort m1 m2]
    by_cases h : m1.position.1 ≤ m2.position.1
    · rw [if_pos h, step2 m1 m2 hw hov21, if_neg (by exact fun hlt => absurd hc (by exact not_lt_of_lt hlt))]
    · rw [if_neg h, step2 m2 m1 hw.symm hov, if_pos hc]
  · unfold deduplicate_matches
    rw [hsort m2 m1]
    by_cases h : m2.position.1 ≤ m1.position.1
    · rw [if_pos h, step2 m2 m1 hw.symm hov, if_pos hc]
    · rw [if_neg h, step2 m1 m2 hw hov21, if_neg (by exact fun hlt => absurd hc (by exact not_lt_of_lt hlt))]

/-- C7: the Obfuscation Engine's detection entry point returns a list sorted
by confidence descending, with no two same-word matches whose spans overlap;
when exactly two same-word candidates overlap, the higher-confidence one is
the one kept by `_deduplicate_matches`. -/
theorem detect_obfuscated_words_contract :
    (∀ (text : List Char) (targets : List (List Char)),
      (detect_obfuscated_words text targets).Pairwise
        (fun a b => b.confidence ≤ a.confidence)) ∧
    (∀ (text : List Char) (targets : List (List Char)),
      (detect_obfuscated_words text targets).Pairwise okPair) ∧
    (∀ m1 m2 : OMatch, m1.original_word = m2.original_word →
      positions_overlap m1.position m2.position = true →
      m2.confidence < m1.confidence →
      deduplicate_matches [m1, m2] = [m1] ∧ deduplicate_matches [m2, m1] = [m1]) := by
  refine ⟨?_, ?_, fun m1 m2 => deduplicate_matches_pair⟩
  · intro text targets
    unfold detect_obfuscated_words
    have h := sortLe_pairwise (fun a b : OMatch => decide (b.confidence ≤ a.confidence))
      (by
        intro a b hab
        simp only [decide_eq_false_iff_not, not_le] at hab
        simp only [decide_eq_true_eq]
        exact le_of_lt hab)
      (by
        intro a b c hab hbc
        simp only [decide_eq_true_eq] at hab hbc ⊢
        exact le_trans hbc hab)
      (deduplicate_matches (targets.flatMap (fun w => find_obfuscated_word text (lowerL w))))
    exact h.imp (fun hab => of_decide_eq_true hab)
  · intro text targets
    unfold detect_obfuscated_words
    exact ((sortLe_perm _ _).pairwise_iff (fun {x y} h => okPair_symm h)).mpr
      (deduplicate_matches_pairwise _)

/-- C7 witness: the contract instantiated on scenario 2's input and on a
concrete overlapping same-word pair. -/
theorem detect_obfuscated_words_contract_witness :
    (detect_obfuscated_words "id!ot".data ["idiot".data]).Pairwise
      (fun a b => b.confidence ≤ a.confidence) ∧
    (detect_obfuscated_words "id!ot".data ["idiot".data]).Pairwise okPair ∧
    deduplicate_matches [idiotMatch, idiotMatchLow] = [idiotMatch] :=
  ⟨detect_obfuscated_words_contract.1 "id!ot".data ["idiot".data],
   detect_obfuscated_words_contract.2.1 "id!ot".data ["idiot".data],
   (detect_obfuscated_words_contract.2.2 idiotMatch idiotMatchLow (by decide)
     (by decide) (by decide)).1⟩

/-- Helper: `idiotLastOrder` is an admissible listing — a permutation — of
any variant set, in particular of the 24-member pool for `idiot`. -/
theorem idiotLastOrder_perm (vs : List (List Char)) : (idiotLastOrder vs).Perm vs := by
  unfold idiotLastOrder
  have h := List.filter_append_perm (fun v => !(v == "id!ot".data)) vs
  simpa using h

/-- C9 counterexample: under an admissible (seed-dependent) iteration order
of the substitution-variant set — here: `id!ot` listed last, a permutation of
the 24-member pool, so `id!ot` falls outside the `[:20]` truncation — the
entry point returns a single `unicode_variants` match, not a
`character_substitution` one; the program therefore does not guarantee the
claimed obfuscation type. -/
theorem obfuscation_scenario_idiot_counterexample :
    (idiotLastOrder (subsVariantPool "idiot".data)).Perm
      (subsVariantPool "idiot".data) ∧
    ((detect_obfuscated_words_ordered idiotLastOrder "id!ot".data
        ["idiot".data]).map
        (fun m => (m.obfuscation_type, decide ((3 : ℚ) / 5 < m.confidence))) =
      [("unicode_variants", true)]) ∧
    "unicode_variants" ≠ "character_substitution" :=
  ⟨idiotLastOrder_perm _, by decide, by decide⟩

/-- C9 as amended: on `"id!ot"` with targets `["idiot"]` the entry point
returns exactly one match for `idiot` covering the whole text with confidence
strictly above 0.6 in either exhibited run, but the obfuscation type depends
on the seed-randomized set iteration order: under insertion order (`id!ot`
inside the truncated 20 of 24 variants) it is `character_substitution` at
confidence 0.96; under an order dropping `id!ot` it is `unicode_variants` at
confidence 0.8. -/
theorem obfuscation_scenario_idiot_amended :
    ((detect_obfuscated_words "id!ot".data ["idiot".data]).map
        (fun m => (m.obfuscation_type, m.confidence, m.original_word, m.position)) =
      [("character_substitution", 24 / 25, "idiot".data, (0, 5))]) ∧
    ((detect_obfuscated_words_ordered idiotLastOrder "id!ot".data
        ["idiot".data]).map
        (fun m => (m.obfuscation_type, m.confidence, m.original_word, m.position)) =
      [("unicode_variants", 4 / 5, "idiot".data, (0, 5))]) ∧
    (3 / 5 : ℚ) < 4 / 5 ∧ (3 / 5 : ℚ) < 24 / 25 :=
  ⟨by decide, by decide, by decide, by decide⟩

/-- C6 counterexample: the Jaccard and cosine similarities of two empty
strings are not 1.0 (both return 0.0). -/
theorem empty_similarity_counterexample :
    jaccard_similarity [] [] ≠ 1 ∧ cosine_similarity [] [] ≠ 1 := by
  refine ⟨by decide, ?_⟩
  have h : cosine_similarity [] [] = 0 := by
    unfold cosine_similarity
    norm_num [lowerL, Real.sqrt_zero]
  rw [h]
  norm_num

/-- C6 as amended: at a pair of empty strings the Levenshtein distance is 0
and every similarity except Jaccard and cosine is 1.0; those two are 0.0. -/
theorem empty_similarity_values :
    levenshtein_distance [] [] = 0 ∧
    levenshtein_similarity [] [] = 1 ∧
    jaro_similarity [] [] = 1 ∧
    jaro_winkler_similarity [] [] = 1 ∧
    sequence_matcher_similarity [] [] = 1 ∧
    n_gram_similarity [] [] = 1 ∧
    jaccard_similarity [] [] = 0 ∧
    cosine_similarity [] [] = 0 := by
  refine ⟨by decide, by decide, by decide, by decide, by decide, by decide,
    by decide, ?_⟩
  unfold cosine_similarity
  norm_num [lowerL, Real.sqrt_zero]

/-- C3, evaluated at the failing input: a user sends three messages inside one
hour to three DIFFERENT targets, the third containing a repetition phrase.
The rule nevertheless fires (the window count uses `time_patterns`, which
pools every target), although only one message went to target `tC`. -/
theorem repetitive_harassment_counts_all_targets :
    ((assocFind rhState.user_profiles "u1").map (fun p => p.target_users) =
      some ["tA", "tB", "tC"]) ∧
    ((assocFind rhState.user_profiles "u1").map (fun p => p.time_patterns) =
      some [0, 60, 120]) ∧
    ((check_repetitive_harassment rhState "you always lie".data rhCtx3 120).map
        (fun m => (m.pattern_type, m.confidence)) =
      some ("repetitive_harassment", 1 / 2)) := by
  decide

/-- C4 counterexample: with history tiers `[0, 0]` and current tier 1 the
scanned tier sequence `[0, 0, 1]` is not strictly increasing, yet the
escalating-threats rule fires (any single lower-tier history message
suffices for the code). -/
theorem escalating_threats_counterexample :
    ((((assocFind escState.conversation_history "c1").getD []).map
        (fun pm => get_threat_level pm.1 escalationWords)) ++
      [get_threat_level "i will hurt you".data escalationWords] = [0, 0, 1]) ∧
    strictlyIncreasing [0, 0, 1] = false ∧
    ((check_escalating_threats escState "i will hurt you".data escCtx 0).map
        (fun m => (m.pattern_type, m.confidence)) =
      some ("escalating_threats", 4 / 5)) := by
  decide

/-- Helper: a `filterMap` whose function yields `some` exactly under a
decidable condition is non-empty iff some element satisfies the condition. -/
theorem filterMap_ite_ne_nil_iff {α β : Type _} (l : List α) (p : α → Prop)
    [DecidablePred p] (f : α → β) :
    l.filterMap (fun a => if p a then some (f a) else none) ≠ [] ↔ ∃ a ∈ l, p a := by
  rw [Ne, List.filterMap_eq_nil_iff]
  push_neg
  constructor
  · rintro ⟨a, ha, hne⟩
    refine ⟨a, ha, ?_⟩
    by_contra hp
    exact hne (by simp [hp])
  · rintro ⟨a, ha, hp⟩
    exact ⟨a, ha, by simp [hp]⟩

/-- C4 as amended: the escalating-threats rule fires exactly when the user has
a profile, the current message has a detected threat tier, and at least one of
the last five conversation-history messages has a detected tier strictly below
the current message's tier — no strictly increasing run across the scanned
messages is required. -/
theorem check_escalating_threats_fires_iff
    (st : AnalyzerState) (message : List Char) (ctx : MsgContext) (now : ℚ) :
    (check_escalating_threats st message ctx now).isSome = true ↔
      ((assocFind st.user_profiles (ctx.user_id.getD "anonymous")).isSome = true ∧
        get_threat_level message escalationWords ≠ -1 ∧
        (∃ pm ∈ (fun h : List (List Char × MsgContext) =>
            h.drop (h.length - 5))
            ((assocFind st.conversation_history
              (ctx.conversation_id.getD
                (ctx.user_id.getD "anonymous" ++ "_default"))).getD []),
          get_threat_level pm.1 escalationWords ≠ -1 ∧
          get_threat_level pm.1 escalationWords <
            get_threat_level message escalationWords)) := by
  cases hfind : assocFind st.user_profiles (ctx.user_id.getD "anonymous") with
  | none => simp [check_escalating_threats, hfind]
  | some prof =>
      by_cases hcur : get_threat_level message escalationWords = -1
      · simp [check_escalating_threats, hfind, hcur]
      · have hiff := filterMap_ite_ne_nil_iff
          (((assocFind st.conversation_history
            (ctx.conversation_id.getD (ctx.user_id.getD "anonymous" ++ "_default"))).getD
            []).drop ((((assocFind st.conversation_history
            (ctx.conversation_id.getD (ctx.user_id.getD "anonymous" ++
              "_default"))).getD []).length) - 5))
          (fun pm => get_threat_level pm.1 escalationWords ≠ -1 ∧
            get_threat_level pm.1 escalationWords <
              get_threat_level message escalationWords)
          (fun pm => "Escalation from level " ++
            toString (get_threat_level pm.1 escalationWords) ++ " to " ++
            toString (get_threat_level message escalationWords))
        simp only [check_escalating_threats, hfind, hcur, ne_eq, not_false_iff,
          true_and, if_false]
        split
        next hev =>
          simp only [Option.isSome_some, true_iff]
          exact ⟨trivial, hiff.mp hev⟩
        next hev =>
          simp only [Option.isSome_none, Bool.false_eq_true, false_iff]
          intro hex
          exact hev (hiff.mpr hex.2)

/-- C2 counterexample: with user `u` over the limit, the submitting call
returns `Except.ok` with a fresh message id — the same successful shape an
accepted submission produces — and the state (hence every queue) is
unchanged; an accepted submission from a clean state returns the identical
`Except.ok` shape, so the caller cannot distinguish the two at the call. -/
theorem rate_limited_submission_counterexample :
    (stream_is_rate_limited rlState "u" 10).1 = true ∧
    add_message rlState "hello".data "u" "web" 0 10 "id1" = (Except.ok "id1", rlState) ∧
    (add_message { is_running := true } "hello".data "u" "web" 0 10 "id2").1 =
      Except.ok "id2" := by
  decide

/-- Helper: the rate limiter mutates nothing when it reports `limited`. -/
theorem rate_limited_state_unchanged (st : StreamState) (u : String) (now : ℚ) :
    (stream_is_rate_limited st u now).1 = true →
    stream_is_rate_limited st u now = (true, st) := by
  unfold stream_is_rate_limited
  split
  · intro h
    simp at h
  · split
    · intro h
      simp at h
    · split
      · intro _
        rfl
      · intro h
        simp at h

/-- C2 as amended: a rate-limited submission is not enqueued, but it is not an
explicit rejection either — `add_message` returns the fresh message id
exactly as for an accepted message (only a warning is logged) and leaves the
whole state untouched. -/
theorem rate_limited_returns_ok_unenqueued
    (st : StreamState) (content : List Char) (user_id platform : String)
    (urs now : ℚ) (freshId : String)
    (hrun : st.is_running = true)
    (hlim : (stream_is_rate_limited st user_id now).1 = true) :
    add_message st content user_id platform urs now freshId =
      (Except.ok freshId, st) := by
  have hr := rate_limited_state_unchanged st user_id now hlim
  unfold add_message
  rw [hrun, if_neg (by simp), hr]
  rfl

/-- C2 witness: the amended statement instantiated at the concrete
rate-limited state. -/
theorem rate_limited_returns_ok_unenqueued_witness :
    add_message rlState "hello".data "u" "web" 0 10 "idW" =
      (Except.ok "idW", rlState) :=
  rate_limited_returns_ok_unenqueued rlState "hello".data "u" "web" 0 10 "idW"
    (by decide) (by decide)

/-- C5 counterexample: on identical component signals (content risk 90 with
confidence 0.9, sentiment toxicity 0.1 with confidence 0.5, no patterns, no
obfuscation, no context) the worker pipeline computes 0.5 — the simple
average — while the Risk Fusion algorithm computes 0.6·0.9 + 0.4·0.1 = 0.58. -/
theorem stream_engine_risk_differ_counterexample :
    stream_calculate_overall_risk (some ⟨90, 9 / 10⟩) (some ⟨1 / 10, 1 / 2⟩) [] none
      = 1 / 2 ∧
    (engine_calculate_overall_risk (some ⟨90, 9 / 10⟩) (some ⟨1 / 10, 1 / 2⟩) [] []
      none).1 = 29 / 50 ∧
    (1 / 2 : ℚ) ≠ 29 / 50 := by
  decide

/-- C5 as amended: the two computations agree when at most one risk factor is
present (here: only the content signal, no context result); with two or more
factors they differ in general, as the counterexample shows. -/
theorem stream_engine_risk_agree_single_signal (content : Option ContentResultSig) :
    stream_calculate_overall_risk content none [] none =
      (engine_calculate_overall_risk content none [] [] none).1 := by
  cases content with
  | none => decide
  | some c =>
      simp only [stream_calculate_overall_risk, engine_calculate_overall_risk,
        engineSignals, engineFinalRisk, engineContextMultiplier, sortLe]
      norm_num [insertLe]

/-- C1: with two or more collected risk factors the fused score is
`min(1, (0.6·highest + 0.4·second + 0.1·mean(rest, when more exist)) × multiplier)`;
with exactly one factor the base is that factor; the returned confidence is
the arithmetic mean of the contributing signals' own confidences. -/
theorem engine_risk_fusion_formula
    (content : Option ContentResultSig) (sentiment : Option SentimentResultSig)
    (patterns : List PatternSig) (obf : List ObfSig)
    (contextR : Option ContextResultSig) :
    (2 ≤ (engineSignals content sentiment patterns obf).1.length →
      (engine_calculate_overall_risk content sentiment patterns obf contextR).1 =
        min 1 (((6 / 10) * (sortLe (fun a b : ℚ => decide (b ≤ a))
              (engineSignals content sentiment patterns obf).1).getD 0 0 +
          (4 / 10) * (sortLe (fun a b : ℚ => decide (b ≤ a))
              (engineSignals content sentiment patterns obf).1).getD 1 0 +
          (if 2 < (engineSignals content sentiment patterns obf).1.length then
            (1 / 10) * listMean ((sortLe (fun a b : ℚ => decide (b ≤ a))
              (engineSignals content sentiment patterns obf).1).drop 2)
          else 0)) * engineContextMultiplier contextR)) ∧
    ((engineSignals content sentiment patterns obf).1.length = 1 →
      (engine_calculate_overall_risk content sentiment patterns obf contextR).1 =
        min 1 ((engineSignals content sentiment patterns obf).1.getD 0 0 *
          engineContextMultiplier contextR)) ∧
    ((engineSignals content sentiment patterns obf).2 ≠ [] →
      (engine_calculate_overall_risk content sentiment patterns obf contextR).2.2 =
        listMean (engineSignals content sentiment patterns obf).2) := by
  set rf := (engineSignals content sentiment patterns obf).1 with hrf
  set cf := (engineSignals content sentiment patterns obf).2 with hcf
  set mult := engineContextMultiplier contextR with hmult
  have hmain : (engine_calculate_overall_risk content sentiment patterns obf contextR).1 =
      engineFinalRisk rf mult := rfl
  have hconf : (engine_calculate_overall_risk content sentiment patterns obf contextR).2.2 =
      if cf ≠ [] then cf.sum / (cf.length : ℚ) else 0 := rfl
  have hlen : (sortLe (fun a b : ℚ => decide (b ≤ a)) rf).length = rf.length :=
    (sortLe_perm _ rf).length_eq
  refine ⟨?_, ?_, ?_⟩
  · intro h2
    have hne : rf ≠ [] := by
      intro h0
      rw [h0] at h2
      simp at h2
    rw [hmain]
    simp only [engineFinalRisk]
    rw [if_pos hne]
    by_cases h3 : 2 < rf.length
    · rw [if_pos (by rw [hlen]; exact h3), if_pos (by rw [hlen]; omega), if_pos h3]
      congr 1
      simp only [listMean]
      ring
    · rw [if_neg (by rw [hlen]; exact h3), if_pos (by rw [hlen]; omega), if_neg h3]
      congr 1
      ring
  · intro h1
    obtain ⟨a, ha⟩ := List.length_eq_one.mp h1
    rw [hmain]
    simp only [engineFinalRisk]
    rw [ha]
    norm_num [sortLe, insertLe]
  · intro hne
    rw [hconf, if_pos hne]
    rfl

/-- C1 witness: the fusion formula instantiated on two concrete signals
(content 90/0.9, sentiment 0.1/0.5). -/
theorem engine_risk_fusion_formula_witness :
    2 ≤ (engineSignals (some ⟨90, 9 / 10⟩) (some ⟨1 / 10, 1 / 2⟩) [] []).1.length ∧
    (engine_calculate_overall_risk (some ⟨90, 9 / 10⟩) (some ⟨1 / 10, 1 / 2⟩)
        [] [] none).1 =
      min 1 (((6 / 10) * (sortLe (fun a b : ℚ => decide (b ≤ a))
            (engineSignals (some ⟨90, 9 / 10⟩) (some ⟨1 / 10, 1 / 2⟩) [] []).1).getD 0 0 +
        (4 / 10) * (sortLe (fun a b : ℚ => decide (b ≤ a))
            (engineSignals (some ⟨90, 9 / 10⟩) (some ⟨1 / 10, 1 / 2⟩) [] []).1).getD 1 0 +
        (if 2 < (engineSignals (some ⟨90, 9 / 10⟩) (some ⟨1 / 10, 1 / 2⟩) [] []).1.length then
          (1 / 10) * listMean ((sortLe (fun a b : ℚ => decide (b ≤ a))
            (engineSignals (some ⟨90, 9 / 10⟩) (some ⟨1 / 10, 1 / 2⟩) [] []).1).drop 2)
        else 0)) * engineContextMultiplier none) :=
  ⟨by decide,
   (engine_risk_fusion_formula (some ⟨90, 9 / 10⟩) (some ⟨1 / 10, 1 / 2⟩) [] [] none).1
     (by decide)⟩

/-- C8: for a non-empty detection list (and text with at least one whitespace
token) the Category Detector's final score is exactly the spec's aggregate
formula (the stored `risk_score` field is its 2-decimal rounding), and the
risk level steps at ≥80 CRITICAL, ≥60 HIGH, ≥30 MEDIUM, >0 LOW, else NONE on
that value. -/
theorem calculate_risk_score_formula (ds : List Detection) (text : List Char)
    (ctx : List (String × String)) (hds : ds ≠ []) (htl : pySplit text ≠ []) :
    (calculate_risk_score ds text ctx).risk_score =
      round2 (categoryAggregateFormula ds text) ∧
    (calculate_risk_score ds text ctx).risk_level =
      (if 80 ≤ categoryAggregateFormula ds text then "CRITICAL"
       else if 60 ≤ categoryAggregateFormula ds text then "HIGH"
       else if 30 ≤ categoryAggregateFormula ds text then "MEDIUM"
       else if 0 < categoryAggregateFormula ds text then "LOW"
       else "NONE") ∧
    (calculate_risk_score ds text ctx).is_abusive =
      decide (0 < categoryAggregateFormula ds text) := by
  have hn : 0 < ds.length := List.length_pos.mpr hds
  have htn : 0 < (pySplit text).length := List.length_pos.mpr htl
  have hmax : (0 : ℚ) < (ds.length : ℚ) * 4 := by positivity
  have hF : (min 100
      (((ds.map (fun d => (d.severity : ℚ) * d.confidence)).sum /
          ((ds.length : ℚ) * 4) * 100) *
        min (3 / 2) (1 + (ds.length : ℚ) / (((pySplit text).length : ℕ) : ℚ) * 2))) =
      categoryAggregateFormula ds text := by
    unfold categoryAggregateFormula
    congr 2
    ring_nf
  simp only [calculate_risk_score]
  rw [if_neg hds, if_pos hmax, if_pos htn, hF]
  exact ⟨rfl, rfl, rfl⟩

/-- C8 witness: a single exact harassment detection (severity 3, confidence 1)
in a two-word text gives score `min(100, 75 × 1.5) = 100`, level CRITICAL. -/
theorem calculate_risk_score_formula_witness :
    ((calculate_risk_score
        [{ detection_type := "word", category := "harassment", severity := 3,
           matched := "idiot".data, position := 1, confidence := 1,
           method := "exact" }] "you idiot".data []).risk_score =
      round2 (categoryAggregateFormula
        [{ detection_type := "word", category := "harassment", severity := 3,
           matched := "idiot".data, position := 1, confidence := 1,
           method := "exact" }] "you idiot".data)) ∧
    categoryAggregateFormula
        [{ detection_type := "word", category := "harassment", severity := 3,
           matched := "idiot".data, position := 1, confidence := 1,
           method := "exact" }] "you idiot".data = 100 :=
  ⟨(calculate_risk_score_formula
      [{ detection_type := "word", category := "harassment", severity := 3,
         matched := "idiot".data, position := 1, confidence := 1,
         method := "exact" }] "you idiot".data [] (by decide) (by decide)).1,
   by decide⟩

/-- Helper: looking up a key right after `assocSet` returns the new binding. -/
theorem find?_assocSet {k v : Type _} [BEq k] [LawfulBEq k]
    (l : List (k × v)) (key : k) (val : v) :
    (assocSet l key val).find? (fun p => p.1 == key) = some (key, val) := by
  induction l with
  | nil => simp [assocSet, List.find?]
  | cons p rest ih =>
      unfold assocSet
      by_cases h : (p.1 == key) = true
      · rw [if_pos h]
        simp [List.find?]
      · rw [if_neg h]
        simp only [List.find?_cons, h]
        exact ih

/-- Helper: appending a fresh binding to a cache that misses the key makes the
lookup return that binding. -/
theorem find?_append_fresh {k v : Type _} [BEq k] [LawfulBEq k]
    {l : List (k × v)} {key : k} (val : v)
    (h : l.find? (fun p => p.1 == key) = none) :
    (l ++ [(key, val)]).find? (fun p => p.1 == key) = some (key, val) := by
  induction l with
  | nil => simp [List.find?]
  | cons p rest ih =>
      have h' := List.find?_eq_none.mp h
      have hp : ((fun q : k × v => q.1 == key) p) = false := by
        have := h' p (List.mem_cons_self _ _)
        simpa using this
      have hrest : rest.find? (fun q : k × v => q.1 == key) = none :=
        List.find?_eq_none.mpr (fun x hx => h' x (List.mem_cons_of_mem _ hx))
      rw [List.cons_append]
      simp only [List.find?_cons, hp]
      exact ih hrest

/-- Helper: a missing key is still missing after dropping the oldest entry. -/
theorem find?_none_drop {k v : Type _} [BEq k]
    {l : List (k × v)} {key : k}
    (h : l.find? (fun p => p.1 == key) = none) :
    (l.drop 1).find? (fun p => p.1 == key) = none :=
  List.find?_eq_none.mpr
    (fun x hx => List.find?_eq_none.mp h x ((List.drop_sublist 1 l).mem hx))

/-- After any (non-empty-text) call, the cache holds the returned result under
the text's cache key. -/
theorem detect_abusive_content_caches
    (analyze : List Char → String → DetectionResult) (st0 : EngineState)
    (t : List Char) (ctxStr : String) (e : ℚ) (ht : t ≠ []) :
    (detect_abusive_content analyze st0 t ctxStr e).2.detection_cache.find?
        (fun p => p.1 == generate_cache_key t ctxStr) =
      some (generate_cache_key t ctxStr,
        (detect_abusive_content analyze st0 t ctxStr e).1) := by
  simp only [detect_abusive_content]
  rw [if_neg ht]
  split
  next p hf =>
    exact find?_assocSet _ _ _
  next hf =>
    simp only [cache_result, engine_update_stats]
    split
    next habusive =>
      split
      next hfull =>
        exact find?_append_fresh _ (find?_none_drop hf)
      next hfull =>
        exact find?_append_fresh _ hf
    next habusive =>
      split
      next hfull =>
        exact find?_append_fresh _ (find?_none_drop hf)
      next hfull =>
        exact find?_append_fresh _ hf

/-- C10: the result cache is keyed only by the first 100 characters of the
text (plus the serialized context): a second call whose text agrees with the
first's on those characters — made right after the first — returns the first
call's cached detections, risk score and risk level, even when the texts
differ beyond character 100. -/
theorem detection_cache_first100
    (analyze : List Char → String → DetectionResult) (st0 : EngineState)
    (t1 t2 : List Char) (ctxStr : String) (e1 e2 : ℚ)
    (h1 : t1 ≠ []) (h2 : t2 ≠ []) (h : t1.take 100 = t2.take 100) :
    ((detect_abusive_content analyze
        (detect_abusive_content analyze st0 t1 ctxStr e1).2 t2 ctxStr e2).1.detections =
      (detect_abusive_content analyze st0 t1 ctxStr e1).1.detections) ∧
    ((detect_abusive_content analyze
        (detect_abusive_content analyze st0 t1 ctxStr e1).2 t2 ctxStr e2).1.risk_score =
      (detect_abusive_content analyze st0 t1 ctxStr e1).1.risk_score) ∧
    ((detect_abusive_content analyze
        (detect_abusive_content analyze st0 t1 ctxStr e1).2 t2 ctxStr e2).1.risk_level =
      (detect_abusive_content analyze st0 t1 ctxStr e1).1.risk_level) := by
  have hkey : generate_cache_key t2 ctxStr = generate_cache_key t1 ctxStr := by
    simp only [generate_cache_key, h]
  have hcache := detect_abusive_content_caches analyze st0 t1 ctxStr e1 h1
  have hsecond : (detect_abusive_content analyze
      (detect_abusive_content analyze st0 t1 ctxStr e1).2 t2 ctxStr e2).1 =
      { (detect_abusive_content analyze st0 t1 ctxStr e1).1 with
        processing_time := e2 } := by
    conv_lhs => rw [detect_abusive_content]
    rw [if_neg h2, hkey]
    dsimp only
    rw [hcache]
  rw [hsecond]
  exact ⟨rfl, rfl, rfl⟩

theorem detection_cache_first100_witness :
    ((detect_abusive_content (fun t _ => calculate_risk_score [] t [])
        (detect_abusive_content (fun t _ => calculate_risk_score [] t [])
          {} "ab".data "ctx" 1).2 "ab".data "ctx" 2).1.risk_score =
      (detect_abusive_content (fun t _ => calculate_risk_score [] t [])
        {} "ab".data "ctx" 1).1.risk_score) :=
  (detection_cache_first100 (fun t _ => calculate_risk_score [] t []) {}
    "ab".data "ab".data "ctx" 1 2 (by decide) (by decide) (by decide)).2.1

